import Mathlib

/-!
A shallow embedding of `riako.go` (package `riako`).

The Go package `riako` is a thin client over a Riak key-value backend (binary
protocol, through a connection pool) and the Solr search endpoint of that
backend.  This file embeds the functions of `riako.go` as pure Lean functions
and proves properties of them.

Conventions of the embedding.

* A Go `string` is a Lean `String`; a Go `[]byte` is a `List Nat` of values
  below 256; Go `int`, `int64` are `Int`; Go `uint`, `uint64` are `Nat`
  (no arithmetic is done on them, so no wrap-around can occur).
* A Go `error` value is an `Option Err` (`none` is `nil`).
* A Go function that can abort with a run-time panic returns an `Outcome`.
* Everything the package calls but does not define (the pool, the Riak
  client, the random source, the clock, `net/http`, `net/url`,
  `encoding/json`) is modelled next to its first use; the answers those
  collaborators give to one call are arguments of the embedded function.
-/

set_option autoImplicit false

namespace Riako

/-! ## Errors and outcomes -/

/-- Error values that flow through the package, tagged by their origin. -/
inductive Err where
  /-- The sentinel `pool.ErrNoMember`. -/
  | ErrNoMember
  /-- Any other error of the pool (a wait that timed out). -/
  | poolTimeout
  /-- The sentinel `riakpbc.ErrObjectNotFound`. -/
  | ErrObjectNotFound
  /-- A transport-level error of the Riak client or of `net/http`. -/
  | transport (msg : String)
  /-- An error of `encoding/json`. -/
  | json (msg : String)
  /-- The error of `io.ReadFull` on a source that ran dry. -/
  | ErrUnexpectedEOF
  /-- An error made with `errors.New`. -/
  | new (msg : String)
  deriving DecidableEq, Repr

/-- The method `Error()` of an error value. -/
def Err.Error : Err → String
  | .ErrNoMember => "pool: no member"
  | .poolTimeout => "pool: timeout"
  | .ErrObjectNotFound => "object not found"
  | .transport msg => msg
  | .json msg => msg
  | .ErrUnexpectedEOF => "unexpected EOF"
  | .new msg => msg

/-- The run-time panics the package can raise. -/
inductive Panic where
  /-- Slice index `index` used on a slice of length `len`. -/
  | indexOutOfRange (index len : Nat)
  /-- The call `make([]byte, n)` with a negative `n`. -/
  | makesliceLen
  /-- A field or method reached through a nil pointer. -/
  | nilDereference
  /-- An explicit `panic(msg)`. -/
  | explicit (msg : String)
  deriving DecidableEq, Repr

/-- Result of a call that either returns normally or panics. -/
inductive Outcome (α : Type) where
  | ret (a : α)
  | panic (p : Panic)
  deriving DecidableEq, Repr

/-! ## Formatting verbs of `fmt` -/

/-- One lowercase hexadecimal digit. -/
def hexDigit (n : Nat) : Char :=
  match n with
  | 0 => '0' | 1 => '1' | 2 => '2' | 3 => '3' | 4 => '4' | 5 => '5' | 6 => '6' | 7 => '7'
  | 8 => '8' | 9 => '9' | 10 => 'a' | 11 => 'b' | 12 => 'c' | 13 => 'd' | 14 => 'e' | _ => 'f'

/-- The verb `%x` on a byte slice: two lowercase hex digits per byte. -/
def fmtHex : List Nat → List Char
  | [] => []
  | b :: bs => hexDigit (b / 16) :: hexDigit (b % 16) :: fmtHex bs

/-- The verb `%d` on an unsigned integer. -/
def fmtUint (n : Nat) : String := Nat.repr n

/-- The verb `%d` on a signed integer. -/
def fmtInt : Int → String
  | .ofNat n => Nat.repr n
  | .negSucc n => "-" ++ Nat.repr (n + 1)

/-! ## Key generation -/

/-- Modelled from the spec: `io.ReadFull(rand.Reader, b)` for a buffer of `n` bytes.  The
random source is the list of bytes it can still deliver; the read fills the buffer with the
first `n` of them, or fails when fewer are available ("fails with a generation error if the
random source cannot supply full entropy"). -/
def readFull (src : List Nat) (n : Nat) : Except Err (List Nat) :=
  if n ≤ src.length then .ok ((src.take n).map (· % 256)) else .error .ErrUnexpectedEOF

/-- The function `generateKey(length)`; `src` is the random source and `now` the value of
`time.Now().Unix()`.  Returns the pair `(key, err)` or panics. -/
def generateKey (length : Int) (src : List Nat) (now : Int) : Outcome (String × Option Err) :=
  if length < 0 then .panic .makesliceLen
  else
    match readFull src length.toNat with
    | .error err => .ret ("", some err)
    | .ok b =>
      -- b[6] = (b[6] & 0x0F) | 0x40
      if h6 : 6 < b.length then
        let b1 := b.set 6 ((b.get ⟨6, h6⟩ &&& 0x0F) ||| 0x40)
        -- b[8] = (b[8] &^ 0x40) | 0x80
        if h8 : 8 < b1.length then
          let b2 := b1.set 8 ((b1.get ⟨8, h8⟩ &&& 0xBF) ||| 0x80)
          .ret (String.mk (fmtHex b2) ++ "-" ++ fmtInt now, none)
        else .panic (.indexOutOfRange 8 b1.length)
      else .panic (.indexOutOfRange 6 b.length)

/-! ## Collaborators of the record operations -/

/-- Identity of a `*riakpbc.Conn`. -/
abbrev Conn := Nat

/-- Modelled from the spec: the state of the connection pool `pool.Pool` ("a bounded
collection of Connections plus a capacity limit").  `idle` are the members the pool can hand
out, `out` the members that are checked out, `released` the log of the calls of `Put`, most
recent first. -/
structure Pool where
  capacity : Nat
  idle : List Conn
  out : List Conn
  released : List Conn
  deriving DecidableEq, Repr

/-- Modelled from the spec: `pool.New(capacity)`. -/
def Pool.New (capacity : Nat) : Pool := ⟨capacity, [], [], []⟩

/-- Modelled from the spec: `(*Pool).Get(timeout)`: "try to take an idle member from the pool";
with no idle member the pool reports `ErrNoMember` while it may still grow and a timeout once
its capacity is checked out. -/
def Pool.Get (p : Pool) : Except Err Conn × Pool :=
  match p.idle with
  | c :: rest => (.ok c, { p with idle := rest, out := c :: p.out })
  | [] => if p.out.length < p.capacity then (.error .ErrNoMember, p) else (.error .poolTimeout, p)

/-- Modelled from the spec: `(*Pool).Register(c)`: "register it as a pool member"; the new
member is held by the caller. -/
def Pool.Register (p : Pool) (c : Conn) : Pool := { p with out := c :: p.out }

/-- Modelled from the spec: `(*Pool).Put(c)`: "returns the member to the pool
unconditionally". -/
def Pool.Put (p : Pool) (c : Conn) : Option Err × Pool :=
  (none, { p with out := p.out.erase c, idle := p.idle ++ [c], released := c :: p.released })

/-- Modelled from the spec: the records held by the backend, newest first, as
`((bucket, key), content)`. -/
abbrev Objects := List ((String × String) × String)

/-- The mutable state the record operations run against. -/
structure World where
  pool : Pool
  objects : Objects
  deriving DecidableEq, Repr

/-- Modelled from the spec: what the network answers during one call of a record operation:
the result of `riakpbc.New` (if the call gets that far), of `Dial`, and the transport failure,
if any, of the one request the call sends. -/
structure Net where
  connect : Except String Conn
  dial : Option String
  request : Option String

/-- Modelled from the spec: `fetchObject(bucket, key) -> bytes | NotFoundError`. -/
def FetchObject (bucket key : String) (net : Net) (w : World) : Except Err String :=
  match net.request with
  | some msg => .error (.transport msg)
  | none =>
    match w.objects.lookup (bucket, key) with
    | none => .error .ErrObjectNotFound
    | some content => .ok content

/-- Modelled from the spec: `storeObject(bucket, key, bytes)`. -/
def StoreObject (bucket key content : String) (net : Net) (w : World) : Option Err × World :=
  match net.request with
  | some msg => (some (.transport msg), w)
  | none => (none, { w with objects := ((bucket, key), content) :: w.objects })

/-- Modelled from the spec: `deleteObject(bucket, key)`. -/
def DeleteObject (bucket key : String) (net : Net) (w : World) : Option Err × World :=
  match net.request with
  | some msg => (some (.transport msg), w)
  | none => (none, { w with objects := w.objects.filter (fun o => !(o.1 == (bucket, key))) })

/-! ## The database and its connections -/

/-- The struct `Database`; the pool it points to lives in the `World`. -/
structure Database where
  riak_addr : String
  solr_addr : String
  deriving DecidableEq, Repr

/-- The constructor `New(riak_addr, solr_addr)` with the world it starts in. -/
def New (riak_addr solr_addr : String) : (Database × Option Err) × World :=
  ((⟨riak_addr, solr_addr⟩, none), ⟨Pool.New 20, []⟩)

/-- The method `getConnection`. -/
def getConnection (_d : Database) (net : Net) (w : World) : Except Err Conn × World :=
  let got := Pool.Get w.pool
  let acquired : Except Err (Conn × Pool) :=
    match got.1 with
    | .error e =>
      if e = .ErrNoMember then
        match net.connect with
        | .error msg => .error (.transport msg)
        | .ok c => .ok (c, got.2.Register c)
      else .error e
    | .ok c => .ok (c, got.2)
  match acquired with
  | .error e => (.error e, { w with pool := got.2 })
  | .ok (c, p) =>
    match net.dial with
    | some msg => (.error (.transport msg), { w with pool := p })
    | none => (.ok c, { w with pool := p })

/-- The method `putConnection`. -/
def putConnection (_d : Database) (c : Conn) (w : World) : Option Err × World :=
  let r := w.pool.Put c
  (r.1, { w with pool := r.2 })

/-! ## Record operations -/

/-- The method `Get`.  `unmarshal data target` is `json.Unmarshal(data, target)` for the type
of the target, with the message of its error; the result carries the returned error and the
target after the call. -/
def Get {V : Type} (unmarshal : String → V → Except String V) (d : Database)
    (bucket key : String) (target : V) (net : Net) (w : World) : (Option Err × V) × World :=
  match getConnection d net w with
  | (.error e, w1) => ((some e, target), w1)
  | (.ok c, w1) =>
    -- defer d.putConnection(c)
    let w2 := (putConnection d c w1).2
    match FetchObject bucket key net w1 with
    | .error e => ((some e, target), w2)
    | .ok b =>
      match unmarshal b target with
      | .error msg => ((some (.json msg), target), w2)
      | .ok v => ((none, v), w2)

/-- The method `Put`.  `marshal value` is `json.Marshal(value)`, with the message of its
error. -/
def Put {V : Type} (marshal : V → Except String String) (d : Database)
    (bucket key : String) (value : V) (net : Net) (w : World) : Option Err × World :=
  match marshal value with
  | .error msg => (some (.json msg), w)
  | .ok b =>
    match getConnection d net w with
    | (.error e, w1) => (some e, w1)
    | (.ok c, w1) =>
      let stored := StoreObject bucket key b net w1
      -- defer d.putConnection(c)
      (stored.1, (putConnection d c stored.2).2)

/-- The method `Delete`. -/
def Delete (d : Database) (bucket key : String) (net : Net) (w : World) : Option Err × World :=
  match getConnection d net w with
  | (.error e, w1) => (some e, w1)
  | (.ok _, w1) => DeleteObject bucket key net w1

/-- A JSON value, as `encoding/json` sees it; a number keeps its literal. -/
inductive Json where
  | null
  | bool (b : Bool)
  | num (lit : String)
  | str (s : String)
  | arr (items : List Json)
  | obj (members : List (String × Json))

mutual
/-- Whether `encoding/json` can store a JSON value in an `interface{}`: every number in it
must be one that `fits`, that is, one that `strconv.ParseFloat(lit, 64)` accepts (a literal
such as `1e400` is out of range and makes the decoding fail). -/
def Json.numbersFit (fits : String → Bool) : Json → Bool
  | .null => true
  | .bool _ => true
  | .str _ => true
  | .num lit => fits lit
  | .arr items => Json.allFit fits items
  | .obj members => Json.membersFit fits members
/-- Whether every element of an array can be stored in an `interface{}`. -/
def Json.allFit (fits : String → Bool) : List Json → Bool
  | [] => true
  | j :: js => Json.numbersFit fits j && Json.allFit fits js
/-- Whether the value of every member of an object can be stored in an `interface{}`. -/
def Json.membersFit (fits : String → Bool) : List (String × Json) → Bool
  | [] => true
  | (_, j) :: ms => Json.numbersFit fits j && Json.membersFit fits ms
end

/-- What one turn of the loop of `UnusedKey` consumes: the random source and the clock read by
`generateKey`, and the network answers to the probe. -/
structure Attempt where
  src : List Nat
  now : Int
  net : Net

/-- The method `UnusedKey`.  The loop runs once per element of `attempts`; the result is
`none` when the loop is still running after the last of them.  `unmarshal` is
`json.Unmarshal` into a `*interface{}`. -/
def UnusedKey (unmarshal : String → Json → Except String Json) (d : Database) (bucket : String)
    (length : Int) : List Attempt → World → Option (Outcome String × World)
  | [], _ => none
  | a :: rest, w =>
    match generateKey length a.src a.now with
    | .panic p => some (.panic p, w)
    | .ret (_, some e) =>
      some (.panic (.explicit ("riako: could not generate key - " ++ e.Error)), w)
    | .ret (key, none) =>
      -- obj := new(interface{})
      match Get unmarshal d bucket key Json.null a.net w with
      | ((some e, _), w1) =>
        if e = .ErrObjectNotFound then some (.ret key, w1)
        else some (.panic (.explicit ("riako: could not generate key - " ++ e.Error)), w1)
      | ((none, _), w1) => UnusedKey unmarshal d bucket length rest w1

/-- The method `Create`; `net` answers the `Put`. -/
def Create {V : Type} (unmarshal : String → Json → Except String Json)
    (marshal : V → Except String String) (d : Database) (bucket : String) (value : V)
    (attempts : List Attempt) (net : Net) (w : World) :
    Option (Outcome (String × Option Err) × World) :=
  match UnusedKey unmarshal d bucket 32 attempts w with
  | none => none
  | some (.panic p, w1) => some (.panic p, w1)
  | some (.ret key, w1) =>
    match Put marshal d bucket key value net w1 with
    | (some e, w2) => some (.ret ("", some e), w2)
    | (none, w2) => some (.ret (key, none), w2)

/-! ## `net/url`: query strings -/

/-- One uppercase hexadecimal digit, as `net/url` writes it. -/
def upperHexDigit (n : Nat) : Char :=
  match n with
  | 0 => '0' | 1 => '1' | 2 => '2' | 3 => '3' | 4 => '4' | 5 => '5' | 6 => '6' | 7 => '7'
  | 8 => '8' | 9 => '9' | 10 => 'A' | 11 => 'B' | 12 => 'C' | 13 => 'D' | 14 => 'E' | _ => 'F'

/-- The UTF-8 bytes of a character: a Go string is the byte string of its text. -/
def utf8Bytes (c : Char) : List Nat :=
  let n := c.toNat
  if n < 0x80 then [n]
  else if n < 0x800 then [0xC0 + n / 64, 0x80 + n % 64]
  else if n < 0x10000 then [0xE0 + n / 4096, 0x80 + n / 64 % 64, 0x80 + n % 64]
  else [0xF0 + n / 262144, 0x80 + n / 4096 % 64, 0x80 + n / 64 % 64, 0x80 + n % 64]

/-- The predicate `shouldEscape(c, encodeQueryComponent)` of the Go library `net/url`: the
unreserved characters of RFC 3986 (letters, digits and `-`, `_`, `.`, `~`) are kept, every
other byte must be escaped. -/
def shouldEscape (b : Nat) : Bool :=
  !((97 ≤ b && b ≤ 122) || (65 ≤ b && b ≤ 90) || (48 ≤ b && b ≤ 57)
    || b == 45 || b == 95 || b == 46 || b == 126)

/-- How `url.QueryEscape` writes one byte: a space as `+`, a byte to escape as `%` and two
uppercase hex digits, any other byte as it is. -/
def escapeByte (b : Nat) : List Char :=
  if b = 32 then ['+']
  else if shouldEscape b then ['%', upperHexDigit (b / 16), upperHexDigit (b % 16)]
  else [Char.ofNat b]

/-- How `url.QueryEscape` writes the bytes of a string. -/
def escapeBytes : List Nat → List Char
  | [] => []
  | b :: bs => escapeByte b ++ escapeBytes bs

/-- The bytes of a Go string. -/
def stringBytes : List Char → List Nat
  | [] => []
  | c :: cs => utf8Bytes c ++ stringBytes cs

/-- The function `url.QueryEscape`. -/
def QueryEscape (s : String) : String := String.mk (escapeBytes (stringBytes s.data))

/-- The type `url.Values`, a map from a key to its values, as an association list. -/
abbrev Values := List (String × List String)

/-- The method `Values.Set(key, value)`: the key gets the single value `value`. -/
def Values.Set : Values → String → String → Values
  | [], key, value => [(key, [value])]
  | (k, vs) :: rest, key, value =>
    if k = key then (k, [value]) :: rest else (k, vs) :: Values.Set rest key value

/-- Comparison `<` of two byte strings, byte by byte. -/
def bytesLt : List Nat → List Nat → Bool
  | _, [] => false
  | [], _ :: _ => true
  | a :: as, b :: bs => if a < b then true else if b < a then false else bytesLt as bs

/-- Comparison `<` of two Go strings. -/
def stringLt (a b : String) : Bool := bytesLt (stringBytes a.data) (stringBytes b.data)

/-- Insertion of an entry into a list of entries in increasing order of the keys. -/
def insertKey (k : String × List String) : Values → Values
  | [] => [k]
  | x :: rest => if stringLt k.1 x.1 then k :: x :: rest else x :: insertKey k rest

/-- The entries of a `url.Values` in increasing order of their keys (`sort.Strings`). -/
def sortKeys : Values → Values
  | [] => []
  | x :: rest => insertKey x (sortKeys rest)

/-- The `key=value` pairs of one key. -/
def encodePairs (key : String) : List String → List String
  | [] => []
  | v :: vs => (QueryEscape key ++ "=" ++ QueryEscape v) :: encodePairs key vs

/-- The pairs of all the entries, in the order of the entries. -/
def encodeEntries : Values → List String
  | [] => []
  | (k, vs) :: rest => encodePairs k vs ++ encodeEntries rest

/-- The function `strings.Join(parts, "&")`. -/
def joinAmp : List String → String
  | [] => ""
  | [x] => x
  | x :: y :: rest => x ++ "&" ++ joinAmp (y :: rest)

/-- The method `Values.Encode()` of the Go library `net/url`, which "encodes the values into
URL-encoded form (`bar=baz&foo=quux`) sorted by key": the escaped pairs, in the increasing
order of the keys, joined by `&`. -/
def Values.Encode (v : Values) : String := joinAmp (encodeEntries (sortKeys v))

/-! ## Search -/

/-- The struct `SearchQuery`. -/
structure SearchQuery where
  Index : String
  Query : String
  Start : Nat
  Rows : Nat
  /-- The field `Sort` (that name is reserved in Lean). -/
  SortOrder : String
  Endpoint : String
  deriving DecidableEq, Repr

/-- The method `endpoint`: the returned string and the query after the call. -/
def SearchQuery.endpoint (q : SearchQuery) (d : Database) : String × SearchQuery :=
  let p : Values := []
  let q := if q.Query = "" then { q with Query := "*" } else q
  let q := if q.Rows = 0 then { q with Rows := 1000 } else q
  let q := if q.SortOrder = "" then { q with SortOrder := "none" } else q
  let p := p.Set "q" q.Query
  let p := p.Set "q.op" "and"
  let p := p.Set "start" (fmtUint q.Start)
  let p := p.Set "rows" (fmtUint q.Rows)
  let p := p.Set "sort" q.SortOrder
  let p := p.Set "wt" "json"
  let q := { q with
    Endpoint := "http://" ++ d.solr_addr ++ "/solr/" ++ q.Index ++ "/select?" ++ p.Encode }
  (q.Endpoint, q)

/-- Search of `sub` at every position of a list of characters. -/
def hasInfix (sub : List Char) : List Char → Bool
  | [] => sub.isPrefixOf []
  | c :: cs => sub.isPrefixOf (c :: cs) || hasInfix sub cs

/-- The function `strings.Contains(s, sub)`: `sub` occurs in `s` as a substring. -/
def containsSubstr (s sub : String) : Bool := hasInfix sub.data s.data

/-- The struct `SearchResult`. -/
structure SearchResult where
  Results : List Json
  Start : Nat
  Total : Nat

/-- The anonymous struct of the field `Response` of `solrSearchResult`. -/
structure solrResponse where
  NumFound : Nat
  Start : Nat
  Docs : List Json

/-- The struct `solrSearchResult`. -/
structure solrSearchResult where
  Response : solrResponse

/-- The value `&solrSearchResult{}`. -/
def solrSearchResult.zero : solrSearchResult := ⟨⟨0, 0, []⟩⟩

/-- The function `strconv.ParseUint(lit, 10, 64)`, by which `encoding/json` stores a number
in a `uint64`: decimal digits only, value below `2^64`. -/
def parseUint (lit : String) : Option Nat :=
  if lit.data = [] then none
  else if lit.data.all (fun c => 48 ≤ c.toNat && c.toNat ≤ 57) then
    let n := lit.data.foldl (fun acc c => acc * 10 + (c.toNat - 48)) 0
    if n < 2 ^ 64 then some n else none
  else none

/-- The case folding under which `encoding/json` compares an object key with a field name:
ASCII letters without case, and the two characters that fold to `s` and `k`. -/
def foldChar (c : Char) : Char :=
  if c.toNat = 0x17F then 's' else if c.toNat = 0x212A then 'k' else c.toLower

/-- Whether `encoding/json` stores the member `key` in the field named `field`. -/
def matchesField (field key : String) : Bool :=
  key.data.map foldChar == field.data.map foldChar

/-- The error `UnmarshalTypeError` of `encoding/json`. -/
def typeError (goType : String) : Err :=
  .json ("json: cannot unmarshal value into Go value of type " ++ goType)

/-- Decoding of a JSON value by `encoding/json` into a field of type `uint64`: `null` leaves
the field, a number is stored when `strconv.ParseUint` accepts its literal, anything else is
a type error. -/
def decodeUint (old : Nat) : Json → Except Err Nat
  | .null => .ok old
  | .num lit =>
    match parseUint lit with
    | some n => .ok n
    | none => .error (typeError "uint64")
  | _ => .error (typeError "uint64")

/-- Decoding of a JSON value by `encoding/json` into a field of type `[]interface{}`: `null`
gives the nil slice, an array its elements in their order, each stored in an `interface{}`,
which fails on a number that does not fit a `float64`; anything else is a type error. -/
def decodeDocs (fits : String → Bool) : Json → Except Err (List Json)
  | .null => .ok []
  | .arr items => if Json.allFit fits items then .ok items else .error (typeError "float64")
  | _ => .error (typeError "[]interface {}")

/-- Decoding of the members of a JSON object, in their order, into a struct; the first type
error is the error of the whole decoding. -/
def decodeMembers {α : Type} (f : α → String → Json → Except Err α) :
    α → List (String × Json) → Except Err α
  | a, [] => .ok a
  | a, (k, j) :: rest =>
    match f a k j with
    | .error e => .error e
    | .ok a1 => decodeMembers f a1 rest

/-- Decoding of one member into the struct of `Response`; an unknown key is skipped. -/
def decodeResponseMember (fits : String → Bool) (r : solrResponse) (key : String) (j : Json) :
    Except Err solrResponse :=
  if matchesField "NumFound" key then
    match decodeUint r.NumFound j with
    | .error e => .error e
    | .ok n => .ok { r with NumFound := n }
  else if matchesField "Start" key then
    match decodeUint r.Start j with
    | .error e => .error e
    | .ok n => .ok { r with Start := n }
  else if matchesField "Docs" key then
    match decodeDocs fits j with
    | .error e => .error e
    | .ok docs => .ok { r with Docs := docs }
  else .ok r

/-- Decoding of a JSON value by `encoding/json` into the struct of `Response`: `null` leaves
it, an object fills the fields its members name, anything else is a type error. -/
def decodeResponse (fits : String → Bool) (r : solrResponse) : Json → Except Err solrResponse
  | .null => .ok r
  | .obj members => decodeMembers (decodeResponseMember fits) r members
  | _ => .error (typeError "struct")

/-- Decoding of one member into a `solrSearchResult`; an unknown key is skipped. -/
def decodeResultMember (fits : String → Bool) (res : solrSearchResult) (key : String)
    (j : Json) : Except Err solrSearchResult :=
  if matchesField "Response" key then
    match decodeResponse fits res.Response j with
    | .error e => .error e
    | .ok r => .ok { res with Response := r }
  else .ok res

/-- Decoding of a JSON value through a `**solrSearchResult` that points to `result`: `null`
sets the pointer to nil, an object fills the struct, any other value is a type error. -/
def decodeEnvelope (fits : String → Bool) (result : solrSearchResult) :
    Json → Except Err (Option solrSearchResult)
  | .null => .ok none
  | .obj members =>
    match decodeMembers (decodeResultMember fits) result members with
    | .error e => .error e
    | .ok res => .ok (some res)
  | _ => .error (typeError "riako.solrSearchResult")

/-- The call `json.Unmarshal(data, &result)` of `Search`; `parse` is the scanner of
`encoding/json`, which gives `none` on a text that is not JSON, and `fits lit` tells whether
`strconv.ParseFloat(lit, 64)` accepts the number `lit`. -/
def unmarshalEnvelope (parse : String → Option Json) (fits : String → Bool) (data : String)
    (result : solrSearchResult) : Except Err (Option solrSearchResult) :=
  match parse data with
  | none => .error (.json "invalid character")
  | some j => decodeEnvelope fits result j

/-- A `*http.Response`: its status and what `ioutil.ReadAll` gets from its body. -/
structure Response where
  StatusCode : Int
  Body : Except Err String

/-- A `*http.Request`. -/
structure Request where
  Method : String
  URL : String
  Body : String
  Header : List (String × String)
  deriving DecidableEq, Repr

/-- The answers of `net/http` during one call: `Get url` for `http.Get`, `NewRequest method
url` for the error, if any, with which `http.NewRequest` refuses the request, `Do request`
for `client.Do`. -/
structure Http where
  Get : String → Except Err Response
  NewRequest : String → String → Option Err
  Do : Request → Except Err Response

/-- The method `Search`: the returned pair and the query after the call. -/
def Search (parse : String → Option Json) (fits : String → Bool) (d : Database)
    (query : SearchQuery) (http : Http) :
    Outcome ((Option SearchResult × Option Err) × SearchQuery) :=
  let built := query.endpoint d
  let url := built.1
  let query := built.2
  match http.Get url with
  | .error err => .ret ((none, some err), query)
  | .ok raw_response =>
    match raw_response.Body with
    | .error err => .ret ((none, some err), query)
    | .ok response_data =>
      -- result := &solrSearchResult{}
      match unmarshalEnvelope parse fits response_data solrSearchResult.zero with
      | .error err => .ret ((none, some err), query)
      | .ok none => .panic .nilDereference
      | .ok (some result) =>
        .ret ((some { Start := result.Response.Start, Total := result.Response.NumFound,
                      Results := result.Response.Docs }, none), query)

/-- The address `MakeSearchable` sends its request to. -/
def searchableURL (d : Database) (bucket : String) : String :=
  "http://" ++ d.solr_addr ++ "/riak/" ++ bucket

/-- The request `MakeSearchable` builds: a `PUT` of the fixed body with the header
`content-type`. -/
def searchableRequest (d : Database) (bucket : String) : Request :=
  let data := "\x7b\"props\":\x7b\"precommit\":[\x7b\"mod\":\"riak_search_kv_hook\",\"fun\":\"precommit\"\x7d]\x7d\x7d"
  ⟨"PUT", searchableURL d bucket, data, [("content-type", "application/json")]⟩

/-- The method `MakeSearchable`. -/
def MakeSearchable (d : Database) (bucket : String) (http : Http) : Outcome (Option Err) :=
  match http.NewRequest "PUT" (searchableURL d bucket) with
  -- request.Header.Add on the nil request, ahead of the test of err
  | some _ => .panic .nilDereference
  | none =>
    let request := searchableRequest d bucket
    match http.Do request with
    | .error err => .ret (some err)
    | .ok response =>
      if response.StatusCode ≠ 204 then
        .ret (some (.new ("riako: failure code from riak endpoint - " ++ fmtInt response.StatusCode)))
      else .ret none

/-- The endpoint as the specification words it, with the parameters in the order `q`,
`q.op`, `start`, `rows`, `sort`, `wt`; it is compared with `SearchQuery.endpoint`. -/
def endpointAsSpecified (q : SearchQuery) (d : Database) : String :=
  let query := if q.Query = "" then "*" else q.Query
  let rows := if q.Rows = 0 then 1000 else q.Rows
  let sort := if q.SortOrder = "" then "none" else q.SortOrder
  "http://" ++ d.solr_addr ++ "/solr/" ++ q.Index ++ "/select?q=" ++ QueryEscape query ++
    "&q.op=and&start=" ++ QueryEscape (fmtUint q.Start) ++ "&rows=" ++
    QueryEscape (fmtUint rows) ++ "&sort=" ++ QueryEscape sort ++ "&wt=json"

/-- The world after the turns `pre` of the loop of `UnusedKey` when every one of them
discards its candidate (the key is generated and the probe returns no error); `none` when
some turn ends the loop. -/
def discards (unmarshal : String → Json → Except String Json) (d : Database) (bucket : String)
    (length : Int) : List Attempt → World → Option World
  | [], w => some w
  | a :: rest, w =>
    match generateKey length a.src a.now with
    | .ret (key, none) =>
      match Get unmarshal d bucket key Json.null a.net w with
      | ((none, _), w1) => discards unmarshal d bucket length rest w1
      | _ => none
    | _ => none

/-! ## Reading back what `fmt` wrote -/

/-- The natural number that a non-empty string of decimal digits denotes. -/
def readUint (cs : List Char) : Option Nat :=
  if cs ≠ [] ∧ cs.all (fun c => 48 ≤ c.toNat && c.toNat ≤ 57) = true then
    some (cs.foldl (fun acc c => acc * 10 + (c.toNat - 48)) 0)
  else none

/-- The integer that a decimal numeral, with a leading `-` when negative, denotes. -/
def readInt (s : String) : Option Int :=
  match s.data with
  | '-' :: cs =>
    match readUint cs with
    | some m => some (-(m : Int))
    | none => none
  | cs =>
    match readUint cs with
    | some m => some (m : Int)
    | none => none

/-- The value of a lowercase hexadecimal digit. -/
def hexValue (c : Char) : Option Nat :=
  if 48 ≤ c.toNat ∧ c.toNat ≤ 57 then some (c.toNat - 48)
  else if 97 ≤ c.toNat ∧ c.toNat ≤ 102 then some (c.toNat - 87)
  else none

/-- The bytes that a string of pairs of lowercase hexadecimal digits denotes. -/
def readHex : List Char → Option (List Nat)
  | [] => some []
  | [_] => none
  | hi :: lo :: rest =>
    match hexValue hi, hexValue lo, readHex rest with
    | some a, some b, some bs => some ((16 * a + b) :: bs)
    | _, _, _ => none

/-! ## Values of the tests -/

/-- The variable `riak_addr` of the tests. -/
def riak_addr : String := "192.168.50.4:8087"

/-- The variable `search_addr` of the tests. -/
def search_addr : String := "192.168.50.4:8098"

/-- The database `New(riak_addr, search_addr)` of the tests. -/
def testDatabase : Database := (New riak_addr search_addr).1.1

/-- The world `New(riak_addr, search_addr)` starts in: an empty pool and no records. -/
def testWorld : World := (New riak_addr search_addr).2

/-- A network on which `riakpbc.New` gives the connection 7 and nothing fails. -/
def goodNet : Net := ⟨.ok 7, none, none⟩

/-- A turn of `UnusedKey` whose nine random bytes are `0, 1, ..., 8`, at the time 17; its
candidate is the key `000102030405460788-17`. -/
def firstAttempt : Attempt := ⟨[0, 1, 2, 3, 4, 5, 6, 7, 8], 17, goodNet⟩

/-- A turn of `UnusedKey` with nine other random bytes; its candidate is the key
`ff01020304054b07bf-17`. -/
def secondAttempt : Attempt := ⟨[255, 1, 2, 3, 4, 5, 0xAB, 7, 0xFF], 17, goodNet⟩

/-- A world in which the bucket of the tests holds a record under the candidate of
`firstAttempt`. -/
def occupiedWorld : World :=
  ⟨Pool.New 20, [(("test-bucket", "000102030405460788-17"), "1")]⟩

/-- A stand-in for `json.Unmarshal` into a `*interface{}` that accepts every text. -/
def acceptAll : String → Json → Except String Json := fun _ _ => .ok Json.null

/-- A world in which the bucket of the tests holds, under the candidate of `firstAttempt`, a
record whose content `xyz` is not JSON. -/
def foreignWorld : World :=
  ⟨Pool.New 20, [(("test-bucket", "000102030405460788-17"), "xyz")]⟩

/-- A stand-in for `json.Unmarshal` into a `*interface{}` that, like `encoding/json`, refuses
the text `xyz`. -/
def refuseXyz : String → Json → Except String Json := fun data _ =>
  if data = "xyz" then .error "invalid character looking for beginning of value"
  else .ok Json.null

/-! # Theorems -/

/-! ## Key generation: tagging and format -/

set_option maxRecDepth 100000 in
theorem tag_version (x : Nat) (h : x < 256) :
    ((x &&& 0x0F) ||| 0x40) / 16 = 4 ∧ ((x &&& 0x0F) ||| 0x40) % 16 = x % 16 ∧
      ((x &&& 0x0F) ||| 0x40) < 256 := by
  revert x
  decide

set_option maxRecDepth 100000 in
theorem tag_variant (x : Nat) (h : x < 256) :
    ((x &&& 0xBF) ||| 0x80) / 64 = 2 ∧ ((x &&& 0xBF) ||| 0x80) % 64 = x % 64 ∧
      ((x &&& 0xBF) ||| 0x80) < 256 := by
  revert x
  decide

theorem fmtHex_length (l : List Nat) : (fmtHex l).length = 2 * l.length := by
  induction l with
  | nil => rfl
  | cons b bs ih => simp only [fmtHex, List.length_cons, ih]; omega

theorem hexDigit_mem (n : Nat) : hexDigit n ∈ "0123456789abcdef".data := by
  unfold hexDigit
  split <;> decide

theorem fmtHex_mem (l : List Nat) : ∀ c ∈ fmtHex l, c ∈ "0123456789abcdef".data := by
  induction l with
  | nil => intro c hc; cases hc
  | cons b bs ih =>
    intro c hc
    simp only [fmtHex, List.mem_cons] at hc
    rcases hc with h | h | h
    · rw [h]; exact hexDigit_mem _
    · rw [h]; exact hexDigit_mem _
    · exact ih c h

theorem readFull_ok (src : List Nat) (n : Nat) (h : n ≤ src.length) :
    readFull src n = .ok ((src.take n).map (· % 256)) := by
  simp only [readFull, h, if_true]

theorem read_length (src : List Nat) (n : Nat) (h : n ≤ src.length) :
    ((src.take n).map (· % 256)).length = n := by
  simp only [List.length_map, List.length_take]; omega

theorem read_lt (src : List Nat) (n : Nat) : ∀ x ∈ (src.take n).map (· % 256), x < 256 := by
  intro x hx
  simp only [List.mem_map] at hx
  obtain ⟨y, -, rfl⟩ := hx
  exact Nat.mod_lt _ (by decide)

/-! ## What `%x` and `%d` write can be read back -/

theorem hexValue_hexDigit (m : Nat) (h : m < 16) : hexValue (hexDigit m) = some m := by
  revert m
  decide

/-- The verb `%x` writes, for every byte, the two hex digits of its value. -/
theorem readHex_fmtHex (b : List Nat) (h : ∀ x ∈ b, x < 256) : readHex (fmtHex b) = some b := by
  induction b with
  | nil => rfl
  | cons x bs ih =>
    have hx : x < 256 := h x (List.mem_cons_self _ _)
    have h1 : hexValue (hexDigit (x / 16)) = some (x / 16) := hexValue_hexDigit _ (by omega)
    have h2 : hexValue (hexDigit (x % 16)) = some (x % 16) :=
      hexValue_hexDigit _ (Nat.mod_lt _ (by decide))
    have h3 : 16 * (x / 16) + x % 16 = x := Nat.div_add_mod x 16
    simp only [fmtHex, readHex, h1, h2, ih (fun y hy => h y (List.mem_cons_of_mem _ hy)), h3]

theorem digitChar_value (m : Nat) (h : m < 10) : (Nat.digitChar m).toNat - 48 = m := by
  revert m
  decide

theorem digits_in_range : ∀ c ∈ "0123456789".data, (48 ≤ c.toNat && c.toNat ≤ 57) = true := by
  decide

theorem digitChar_member (m : Nat) (h : m < 10) : Nat.digitChar m ∈ "0123456789".data := by
  revert m
  decide

theorem toDigitsCore_member (fuel : Nat) : ∀ (n : Nat) (acc : List Char),
    (∀ c ∈ acc, c ∈ "0123456789".data) →
    ∀ c ∈ Nat.toDigitsCore 10 fuel n acc, c ∈ "0123456789".data := by
  induction fuel with
  | zero => intro n acc hacc c hc; exact hacc c hc
  | succ f ih =>
    intro n acc hacc c hc
    have hcons : ∀ x ∈ Nat.digitChar (n % 10) :: acc, x ∈ "0123456789".data := by
      intro x hx
      rcases List.mem_cons.mp hx with h | h
      · rw [h]; exact digitChar_member _ (Nat.mod_lt _ (by decide))
      · exact hacc x h
    simp only [Nat.toDigitsCore] at hc
    split at hc
    · exact hcons c hc
    · exact ih _ _ hcons c hc

theorem toDigitsCore_nonempty (fuel : Nat) : ∀ (n : Nat) (acc : List Char),
    acc ≠ [] → Nat.toDigitsCore 10 fuel n acc ≠ [] := by
  induction fuel with
  | zero => intro n acc hacc; exact hacc
  | succ f ih =>
    intro n acc _
    simp only [Nat.toDigitsCore]
    split
    · exact List.cons_ne_nil _ _
    · exact ih _ _ (List.cons_ne_nil _ _)

/-- Reading the digits that `toDigitsCore` puts ahead of `acc` gives the number written. -/
theorem toDigitsCore_value (fuel : Nat) : ∀ (n : Nat) (acc : List Char), n < fuel →
    (Nat.toDigitsCore 10 fuel n acc).foldl (fun a c => a * 10 + (c.toNat - 48)) 0 =
      acc.foldl (fun a c => a * 10 + (c.toNat - 48)) n := by
  induction fuel with
  | zero => intro n acc h; omega
  | succ f ih =>
    intro n acc h
    have hd := digitChar_value (n % 10) (Nat.mod_lt _ (by decide))
    simp only [Nat.toDigitsCore]
    split
    · rename_i h0
      have hn : n % 10 = n := by omega
      rw [List.foldl_cons, hd, Nat.zero_mul, Nat.zero_add, hn]
    · rename_i h0
      rw [ih (n / 10) _ (by omega)]
      have hn : n / 10 * 10 + n % 10 = n := by omega
      rw [List.foldl_cons, hd, hn]

/-- The verb `%d` writes, for an unsigned integer, a numeral that denotes it. -/
theorem readUint_repr (n : Nat) : readUint (Nat.repr n).data = some n := by
  have hdata : (Nat.repr n).data = Nat.toDigitsCore 10 (n + 1) n [] := rfl
  have hmem : ∀ c ∈ Nat.toDigitsCore 10 (n + 1) n [], c ∈ "0123456789".data :=
    toDigitsCore_member _ n [] (fun x hx => by cases hx)
  have hne : Nat.toDigitsCore 10 (n + 1) n [] ≠ [] := by
    simp only [Nat.toDigitsCore]
    split
    · exact List.cons_ne_nil _ _
    · exact toDigitsCore_nonempty _ _ _ (List.cons_ne_nil _ _)
  have hall : (Nat.toDigitsCore 10 (n + 1) n []).all (fun c => 48 ≤ c.toNat && c.toNat ≤ 57)
      = true := by
    rw [List.all_eq_true]
    intro c hc
    exact digits_in_range c (hmem c hc)
  rw [hdata, readUint, if_pos ⟨hne, hall⟩, toDigitsCore_value _ n [] (by omega)]
  rfl

/-- The verb `%d` writes, for a signed integer, a numeral that denotes it. -/
theorem readInt_fmtInt (i : Int) : readInt (fmtInt i) = some i := by
  cases i with
  | ofNat n =>
    have hr := readUint_repr n
    have hmem : ∀ c ∈ (Nat.repr n).data, c ∈ "0123456789".data :=
      toDigitsCore_member _ n [] (fun x hx => by cases hx)
    show readInt (Nat.repr n) = some (Int.ofNat n)
    unfold readInt
    split
    · rename_i cs heq
      have hminus : '-' ∈ (Nat.repr n).data := by rw [heq]; exact List.mem_cons_self _ _
      exact absurd (hmem _ hminus) (by decide)
    · rw [hr]
      rfl
  | negSucc n =>
    have hr := readUint_repr (n + 1)
    have hdata : (fmtInt (Int.negSucc n)).data = '-' :: (Nat.repr (n + 1)).data := rfl
    unfold readInt
    rw [hdata]
    simp only [hr]
    rfl

/-- The value of `generateKey` on a buffer the random source filled, of length 9 or more. -/
theorem generateKey_filled (n : Int) (src : List Nat) (t : Int) (b : List Nat)
    (hn : 0 ≤ n) (hb : readFull src n.toNat = .ok b) (h6 : 6 < b.length) (h8 : 8 < b.length) :
    generateKey n src t =
      .ret (String.mk (fmtHex ((b.set 6 ((b[6] &&& 0x0F) ||| 0x40)).set 8
        ((b[8] &&& 0xBF) ||| 0x80))) ++ "-" ++ fmtInt t, none) := by
  have hneg : ¬ n < 0 := by omega
  have h8s : 8 < (b.set 6 ((b[6] &&& 0x0F) ||| 0x40)).length := by
    rw [List.length_set]; exact h8
  simp only [generateKey, hneg, if_false, hb, h6, dite_true, List.get_eq_getElem, h8s,
    List.getElem_set_ne (show (6 : Nat) ≠ 8 by decide)]

/-- Claim C7: for a length `n ≥ 9`, the `n` bytes `b` read from the random source and a
timestamp `t`, `generateKey` returns no error and the key `hex(b1) ++ "-" ++ decimal(t)`, a
non-empty string whose first `2n` characters are lowercase hex digits that read back as the
bytes `b1` and whose part after the `-` is a decimal numeral that reads back as `t`, where
`b1` has the length of `b`, equals `b` at every index other than 6 and 8, has at index 6 the
high nibble 4 over the low nibble of `b[6]`, and at index 8 the top two bits `1,0` over the
low six bits of `b[8]`; when the source cannot fill the buffer, the result is the empty
string and the error of the read. -/
theorem generateKey_tags_and_formats (n : Int) (src : List Nat) (t : Int) :
    (∀ b : List Nat, 9 ≤ n → readFull src n.toNat = .ok b →
      ∃ b1 : List Nat,
        generateKey n src t = .ret (String.mk (fmtHex b1) ++ "-" ++ fmtInt t, none) ∧
        readHex (fmtHex b1) = some b1 ∧ readInt (fmtInt t) = some t ∧
        String.mk (fmtHex b1) ++ "-" ++ fmtInt t ≠ "" ∧
        b1.length = n.toNat ∧ (fmtHex b1).length = 2 * n.toNat ∧
        (∀ c ∈ fmtHex b1, c ∈ "0123456789abcdef".data) ∧
        (∀ i, i ≠ 6 → i ≠ 8 → b1[i]? = b[i]?) ∧
        b1.getD 6 0 / 16 = 4 ∧ b1.getD 6 0 % 16 = b.getD 6 0 % 16 ∧
        b1.getD 8 0 / 64 = 2 ∧ b1.getD 8 0 % 64 = b.getD 8 0 % 64) ∧
    (∀ e : Err, readFull src n.toNat = .error e → generateKey n src t = .ret ("", some e)) := by
  constructor
  · intro b hn hb
    have hfill : n.toNat ≤ src.length := by
      by_contra hc
      simp only [readFull, hc, if_false] at hb
      cases hb
    have hbeq : b = (src.take n.toNat).map (· % 256) := by
      rw [readFull_ok src _ hfill] at hb
      injection hb with hb
      exact hb.symm
    have hlen : b.length = n.toNat := by rw [hbeq]; exact read_length src _ hfill
    have hlt : ∀ x ∈ b, x < 256 := by rw [hbeq]; exact read_lt src _
    have h9 : 9 ≤ n.toNat := by omega
    have h6 : 6 < b.length := by omega
    have h8 : 8 < b.length := by omega
    have hx6 : b[6] < 256 := hlt _ (List.getElem_mem _)
    have hx8 : b[8] < 256 := hlt _ (List.getElem_mem _)
    obtain ⟨v1, v2, v3⟩ := tag_version b[6] hx6
    obtain ⟨r1, r2, r3⟩ := tag_variant b[8] hx8
    have hlt1 : ∀ x ∈ (b.set 6 ((b[6] &&& 0x0F) ||| 0x40)).set 8 ((b[8] &&& 0xBF) ||| 0x80),
        x < 256 := by
      intro x hx
      rcases List.mem_or_eq_of_mem_set hx with h1 | h1
      · rcases List.mem_or_eq_of_mem_set h1 with h2 | h2
        · exact hlt x h2
        · rw [h2]; exact v3
      · rw [h1]; exact r3
    refine ⟨(b.set 6 ((b[6] &&& 0x0F) ||| 0x40)).set 8 ((b[8] &&& 0xBF) ||| 0x80),
      generateKey_filled n src t b (by omega) hb h6 h8, readHex_fmtHex _ hlt1, readInt_fmtInt t,
      ?_, ?_, ?_, fmtHex_mem _, ?_, ?_, ?_, ?_, ?_⟩
    · intro hempty
      have hl := congrArg String.length hempty
      rw [String.length_append, String.length_append] at hl
      have h1 : "-".length = 1 := rfl
      have h0 : "".length = 0 := rfl
      omega
    · simp only [List.length_set, hlen]
    · simp only [fmtHex_length, List.length_set, hlen]
    · intro i hi6 hi8
      rw [List.getElem?_set_ne (Ne.symm hi8), List.getElem?_set_ne (Ne.symm hi6)]
    · simp only [List.getD_eq_getElem?_getD, List.getElem?_set_ne (show (8 : Nat) ≠ 6 by decide),
        List.getElem?_set_self, h6, List.getElem?_eq_getElem, Option.getD_some, v1]
    · simp only [List.getD_eq_getElem?_getD, List.getElem?_set_ne (show (8 : Nat) ≠ 6 by decide),
        List.getElem?_set_self, h6, List.getElem?_eq_getElem, Option.getD_some, v2]
    · have h8s : 8 < (b.set 6 ((b[6] &&& 0x0F) ||| 0x40)).length := by
        rw [List.length_set]; exact h8
      simp only [List.getD_eq_getElem?_getD, List.getElem?_set_self, h8s, List.getElem?_eq_getElem,
        Option.getD_some, r1]
    · have h8s : 8 < (b.set 6 ((b[6] &&& 0x0F) ||| 0x40)).length := by
        rw [List.length_set]; exact h8
      simp only [List.getD_eq_getElem?_getD, List.getElem?_set_self, h8s, List.getElem?_eq_getElem,
        h8, Option.getD_some, r2]
  · intro e he
    have hneg : ¬ n < 0 := by
      intro hc
      have h0 : n.toNat = 0 := by omega
      simp only [readFull, h0, Nat.zero_le, if_true] at he
      cases he
    simp only [generateKey, hneg, if_false, he]

/-- Witness of C7 at the length 9: the bytes `ff 01 02 03 04 05 ab 07 ff` at the time
1700000000 give the key `ff01020304054b07bf-1700000000`. -/
theorem generateKey_tags_and_formats_witness :
    generateKey 9 [255, 1, 2, 3, 4, 5, 0xAB, 7, 0xFF, 9, 10] 1700000000 =
      .ret ("ff01020304054b07bf-1700000000", none) ∧
    ∃ b1 : List Nat,
      generateKey 9 [255, 1, 2, 3, 4, 5, 0xAB, 7, 0xFF, 9, 10] 1700000000 =
        .ret (String.mk (fmtHex b1) ++ "-" ++ fmtInt 1700000000, none) ∧
      readHex (fmtHex b1) = some b1 ∧ readInt (fmtInt 1700000000) = some 1700000000 ∧
      String.mk (fmtHex b1) ++ "-" ++ fmtInt 1700000000 ≠ "" ∧
      b1.length = (9 : Int).toNat ∧ (fmtHex b1).length = 2 * (9 : Int).toNat ∧
      (∀ c ∈ fmtHex b1, c ∈ "0123456789abcdef".data) ∧
      (∀ i, i ≠ 6 → i ≠ 8 → b1[i]? = [255, 1, 2, 3, 4, 5, 0xAB, 7, 0xFF][i]?) ∧
      b1.getD 6 0 / 16 = 4 ∧ b1.getD 6 0 % 16 = [255, 1, 2, 3, 4, 5, 0xAB, 7, 0xFF].getD 6 0 % 16 ∧
      b1.getD 8 0 / 64 = 2 ∧ b1.getD 8 0 % 64 = [255, 1, 2, 3, 4, 5, 0xAB, 7, 0xFF].getD 8 0 % 64 :=
  ⟨by decide,
   (generateKey_tags_and_formats 9 [255, 1, 2, 3, 4, 5, 0xAB, 7, 0xFF, 9, 10] 1700000000).1
    [255, 1, 2, 3, 4, 5, 0xAB, 7, 0xFF] (by decide) rfl⟩

/-! ## Key generation: the length precondition -/

/-- The value of `generateKey` on a buffer of at most 6 bytes that the source filled. -/
theorem generateKey_short6 (n : Int) (src : List Nat) (t : Int)
    (hfill : n.toNat ≤ src.length) (h0 : 0 ≤ n) (h6 : n ≤ 6) :
    generateKey n src t = .panic (.indexOutOfRange 6 n.toNat) := by
  have hneg : ¬ n < 0 := by omega
  have hlen := read_length src _ hfill
  have hlt : ¬ 6 < n.toNat := by omega
  simp only [generateKey, hneg, if_false, readFull_ok src _ hfill, hlt, dite_false, hlen]

/-- The value of `generateKey` on a buffer of 7 or 8 bytes that the source filled. -/
theorem generateKey_short8 (n : Int) (src : List Nat) (t : Int)
    (hfill : n.toNat ≤ src.length) (h7 : 7 ≤ n) (h8 : n ≤ 8) :
    generateKey n src t = .panic (.indexOutOfRange 8 n.toNat) := by
  have hneg : ¬ n < 0 := by omega
  have hlen := read_length src _ hfill
  have hlt6 : 6 < n.toNat := by omega
  have hlt8 : ¬ 8 < n.toNat := by omega
  simp only [generateKey, hneg, if_false, readFull_ok src _ hfill, hlt6, dite_true,
    List.length_set, hlen, hlt8, dite_false]

/-- Claim C10: `generateKey(n)` indexes bytes 6 and 8 of its `n`-byte buffer without a bounds
check.  With a random source that fills the buffer, it returns a key exactly when `n ≥ 9`;
for `0 ≤ n ≤ 6` the access at index 6, and for `n = 7, 8` the access at index 8, is out of
range and panics, so neither a key nor an error is returned, and `UnusedKey(bucket, n)`
aborts with the same panic on its first turn. -/
theorem generateKey_length_precondition (n : Int) (src : List Nat) (t : Int)
    (hfill : n.toNat ≤ src.length) :
    ((∃ key, generateKey n src t = .ret (key, none)) ↔ 9 ≤ n) ∧
    (0 ≤ n → n ≤ 6 → generateKey n src t = .panic (.indexOutOfRange 6 n.toNat)) ∧
    (7 ≤ n → n ≤ 8 → generateKey n src t = .panic (.indexOutOfRange 8 n.toNat)) ∧
    (n ≤ 8 → ∀ r, generateKey n src t ≠ .ret r) ∧
    (0 ≤ n → n ≤ 8 →
      ∀ (unmarshal : String → Json → Except String Json) (d : Database) (bucket : String)
        (net : Net) (rest : List Attempt) (w : World),
        ∃ i, (i = 6 ∨ i = 8) ∧
          UnusedKey unmarshal d bucket n (⟨src, t, net⟩ :: rest) w =
            some (.panic (.indexOutOfRange i n.toNat), w)) := by
  have hshort : n ≤ 8 → ∀ r, generateKey n src t ≠ .ret r := by
    intro h8 r hr
    by_cases hneg : n < 0
    · simp only [generateKey, hneg, if_true] at hr
      cases hr
    · by_cases h6 : n ≤ 6
      · rw [generateKey_short6 n src t hfill (by omega) h6] at hr
        cases hr
      · rw [generateKey_short8 n src t hfill (by omega) h8] at hr
        cases hr
  refine ⟨⟨?_, ?_⟩, generateKey_short6 n src t hfill, generateKey_short8 n src t hfill,
    hshort, ?_⟩
  · rintro ⟨key, hkey⟩
    by_contra hc
    exact hshort (by omega) _ hkey
  · intro h9
    have hlen := read_length src _ hfill
    exact ⟨_, generateKey_filled n src t _ (by omega) (readFull_ok src _ hfill)
      (by rw [hlen]; omega) (by rw [hlen]; omega)⟩
  · intro h0 h8 unmarshal d bucket net rest w
    by_cases h6 : n ≤ 6
    · exact ⟨6, Or.inl rfl, by
        simp only [UnusedKey, generateKey_short6 n src t hfill h0 h6]⟩
    · exact ⟨8, Or.inr rfl, by
        simp only [UnusedKey, generateKey_short8 n src t hfill (by omega) h8]⟩

/-- Witness of C10 at the length 8. -/
theorem generateKey_length_precondition_witness :
    ((∃ key, generateKey 8 [1, 2, 3, 4, 5, 6, 7, 8] 17 = .ret (key, none)) ↔ (9 : Int) ≤ 8) ∧
    generateKey 8 [1, 2, 3, 4, 5, 6, 7, 8] 17 = .panic (.indexOutOfRange 8 (8 : Int).toNat) :=
  ⟨(generateKey_length_precondition 8 [1, 2, 3, 4, 5, 6, 7, 8] 17 (by decide)).1,
   (generateKey_length_precondition 8 [1, 2, 3, 4, 5, 6, 7, 8] 17 (by decide)).2.2.1
     (by decide) (by decide)⟩

/-! ## The search endpoint -/

theorem hasInfix_iff (sub l : List Char) : hasInfix sub l = true ↔ sub <:+: l := by
  induction l with
  | nil =>
    simp only [hasInfix, List.isPrefixOf_iff_prefix, List.prefix_nil, List.infix_nil]
  | cons c cs ih =>
    simp only [hasInfix, Bool.or_eq_true, List.isPrefixOf_iff_prefix, ih, List.infix_cons_iff]

/-- A string of the shape `a ++ sub ++ b` contains `sub`. -/
theorem containsSubstr_mid (a sub b : String) : containsSubstr (a ++ sub ++ b) sub = true := by
  rw [containsSubstr, hasInfix_iff]
  exact ⟨a.data, b.data, by simp only [String.data_append]⟩

theorem escapeBytes_append (l1 l2 : List Nat) :
    escapeBytes (l1 ++ l2) = escapeBytes l1 ++ escapeBytes l2 := by
  induction l1 with
  | nil => rfl
  | cons b bs ih =>
    show escapeByte b ++ escapeBytes (bs ++ l2) = escapeByte b ++ escapeBytes bs ++ escapeBytes l2
    rw [ih, List.append_assoc]

/-- Escaping leaves a string of decimal digits as it is. -/
theorem escape_digits (cs : List Char) (h : ∀ c ∈ cs, c ∈ "0123456789".data) :
    escapeBytes (stringBytes cs) = cs := by
  induction cs with
  | nil => rfl
  | cons c cs ih =>
    have hc : ∀ c ∈ "0123456789".data, escapeBytes (utf8Bytes c) = [c] := by decide
    rw [stringBytes, escapeBytes_append, hc c (h c (List.mem_cons_self _ _)),
      ih (fun x hx => h x (List.mem_cons_of_mem _ hx))]
    rfl

/-- The verb `%d` writes only decimal digits, which `url.QueryEscape` keeps. -/
theorem QueryEscape_fmtUint (n : Nat) : QueryEscape (fmtUint n) = fmtUint n := by
  have h : ∀ c ∈ (fmtUint n).data, c ∈ "0123456789".data := by
    intro c hc
    exact toDigitsCore_member _ n [] (fun x hx => by cases hx) c hc
  show String.mk (escapeBytes (stringBytes (fmtUint n).data)) = fmtUint n
  rw [escape_digits _ h]

/-- The six calls of `Set` in `endpoint` leave the entries in the order of the calls. -/
theorem set_params (query start rows sort : String) :
    Values.Set (Values.Set (Values.Set (Values.Set (Values.Set
      (Values.Set [] "q" query) "q.op" "and") "start" start) "rows" rows) "sort" sort)
      "wt" "json" =
    [("q", [query]), ("q.op", ["and"]), ("start", [start]), ("rows", [rows]),
      ("sort", [sort]), ("wt", ["json"])] := rfl

/-- The method `Encode` on the entries of `endpoint` writes them in the order of the keys. -/
theorem encode_params (query start rows sort : String) :
    Values.Encode [("q", [query]), ("q.op", ["and"]), ("start", [start]), ("rows", [rows]),
      ("sort", [sort]), ("wt", ["json"])] =
    "q=" ++ QueryEscape query ++ "&q.op=and&rows=" ++ QueryEscape rows ++ "&sort=" ++
      QueryEscape sort ++ "&start=" ++ QueryEscape start ++ "&wt=json" := by
  have h : Values.Encode [("q", [query]), ("q.op", ["and"]), ("start", [start]),
      ("rows", [rows]), ("sort", [sort]), ("wt", ["json"])] =
    ("q=" ++ QueryEscape query) ++ "&" ++ ("q.op=and" ++ "&" ++ (("rows=" ++ QueryEscape rows)
      ++ "&" ++ (("sort=" ++ QueryEscape sort) ++ "&" ++ (("start=" ++ QueryEscape start) ++
      "&" ++ "wt=json")))) := rfl
  rw [h]
  apply String.ext
  simp only [String.data_append, List.append_assoc]
  rfl

/-- The value of `endpoint`: the string it returns and the query it leaves. -/
theorem endpoint_value (q : SearchQuery) (d : Database) :
    q.endpoint d =
      ("http://" ++ d.solr_addr ++ "/solr/" ++ q.Index ++ "/select?" ++
        ("q=" ++ QueryEscape (if q.Query = "" then "*" else q.Query) ++ "&q.op=and&rows=" ++
          fmtUint (if q.Rows = 0 then 1000 else q.Rows) ++ "&sort=" ++
          QueryEscape (if q.SortOrder = "" then "none" else q.SortOrder) ++ "&start=" ++
          fmtUint q.Start ++ "&wt=json"),
       { Index := q.Index
         Query := if q.Query = "" then "*" else q.Query
         Start := q.Start
         Rows := if q.Rows = 0 then 1000 else q.Rows
         SortOrder := if q.SortOrder = "" then "none" else q.SortOrder
         Endpoint := "http://" ++ d.solr_addr ++ "/solr/" ++ q.Index ++ "/select?" ++
          ("q=" ++ QueryEscape (if q.Query = "" then "*" else q.Query) ++ "&q.op=and&rows=" ++
            fmtUint (if q.Rows = 0 then 1000 else q.Rows) ++ "&sort=" ++
            QueryEscape (if q.SortOrder = "" then "none" else q.SortOrder) ++ "&start=" ++
            fmtUint q.Start ++ "&wt=json") }) := by
  obtain ⟨index, query, start, rows, sort, ep⟩ := q
  by_cases h1 : query = "" <;> by_cases h2 : rows = 0 <;> by_cases h3 : sort = "" <;>
    simp only [SearchQuery.endpoint, h1, h2, h3, if_true, if_false, set_params, encode_params,
      QueryEscape_fmtUint]

/-- Claim C3, as stated, fails: for the address of the tests, the index `test-bucket` and
`Start = 0`, the endpoint of a query with empty `Query`, zero `Rows` and empty `Sort` is
`...select?q=%2A&q.op=and&rows=1000&sort=none&start=0&wt=json`, which does not contain
`q=*`. -/
theorem endpoint_defaults_counterexample :
    (SearchQuery.endpoint ⟨"test-bucket", "", 0, 0, "", ""⟩
        ⟨"192.168.50.4:8087", "192.168.50.4:8098"⟩).1 =
      "http://192.168.50.4:8098/solr/test-bucket/select?q=%2A&q.op=and&rows=1000&sort=none&start=0&wt=json" ∧
    ¬ (containsSubstr (SearchQuery.endpoint ⟨"test-bucket", "", 0, 0, "", ""⟩
        ⟨"192.168.50.4:8087", "192.168.50.4:8098"⟩).1 "q=*" = true ∧
      containsSubstr (SearchQuery.endpoint ⟨"test-bucket", "", 0, 0, "", ""⟩
        ⟨"192.168.50.4:8087", "192.168.50.4:8098"⟩).1 "rows=1000" = true ∧
      containsSubstr (SearchQuery.endpoint ⟨"test-bucket", "", 0, 0, "", ""⟩
        ⟨"192.168.50.4:8087", "192.168.50.4:8098"⟩).1 "sort=none" = true) := by
  decide

/-- Claim C3 (amended): for every database address, index and `Start`, a query with empty
`Query`, zero `Rows` and empty `Sort` produces from `endpoint` a string that contains
`q=%2A` (the default `*`, escaped by `url.Values.Encode`), `rows=1000` and `sort=none`. -/
theorem endpoint_defaults (d : Database) (index : String) (start : Nat) (ep : String) :
    containsSubstr (SearchQuery.endpoint ⟨index, "", start, 0, "", ep⟩ d).1 "q=%2A" = true ∧
    containsSubstr (SearchQuery.endpoint ⟨index, "", start, 0, "", ep⟩ d).1 "rows=1000" = true ∧
    containsSubstr (SearchQuery.endpoint ⟨index, "", start, 0, "", ep⟩ d).1 "sort=none" = true := by
  have hq : QueryEscape "*" = "%2A" := by decide
  have hs : QueryEscape "none" = "none" := by decide
  have hr : fmtUint 1000 = "1000" := by decide
  have hv : (SearchQuery.endpoint ⟨index, "", start, 0, "", ep⟩ d).1 =
      "http://" ++ d.solr_addr ++ "/solr/" ++ index ++ "/select?" ++
        ("q=" ++ "%2A" ++ "&q.op=and&rows=" ++ "1000" ++ "&sort=" ++ "none" ++ "&start=" ++
          fmtUint start ++ "&wt=json") := by
    rw [endpoint_value]
    simp only [if_true, hq, hs, hr]
  refine ⟨?_, ?_, ?_⟩
  · have h : (SearchQuery.endpoint ⟨index, "", start, 0, "", ep⟩ d).1 =
        ("http://" ++ d.solr_addr ++ "/solr/" ++ index ++ "/select?") ++ "q=%2A" ++
          ("&q.op=and&rows=1000&sort=none&start=" ++ fmtUint start ++ "&wt=json") := by
      rw [hv]
      apply String.ext
      simp only [String.data_append, List.append_assoc]
      rfl
    rw [h]
    exact containsSubstr_mid _ _ _
  · have h : (SearchQuery.endpoint ⟨index, "", start, 0, "", ep⟩ d).1 =
        ("http://" ++ d.solr_addr ++ "/solr/" ++ index ++ "/select?q=%2A&q.op=and&") ++
          "rows=1000" ++ ("&sort=none&start=" ++ fmtUint start ++ "&wt=json") := by
      rw [hv]
      apply String.ext
      simp only [String.data_append, List.append_assoc]
      rfl
    rw [h]
    exact containsSubstr_mid _ _ _
  · have h : (SearchQuery.endpoint ⟨index, "", start, 0, "", ep⟩ d).1 =
        ("http://" ++ d.solr_addr ++ "/solr/" ++ index ++
          "/select?q=%2A&q.op=and&rows=1000&") ++
          "sort=none" ++ ("&start=" ++ fmtUint start ++ "&wt=json") := by
      rw [hv]
      apply String.ext
      simp only [String.data_append, List.append_assoc]
      rfl
    rw [h]
    exact containsSubstr_mid _ _ _

/-- Claim C4, as stated, fails: for the first query of `TestSearch` the endpoint is
`...select?q=A%3A1+AND+B%3A2&q.op=and&rows=1000&sort=none&start=0&wt=json`, with `rows` and
`sort` ahead of `start`, and not the string with the parameters in the order `q`, `q.op`,
`start`, `rows`, `sort`, `wt`. -/
theorem endpoint_order_counterexample :
    (SearchQuery.endpoint ⟨"test-bucket", "A:1 AND B:2", 0, 0, "", ""⟩
        ⟨"192.168.50.4:8087", "192.168.50.4:8098"⟩).1 =
      "http://192.168.50.4:8098/solr/test-bucket/select?q=A%3A1+AND+B%3A2&q.op=and&rows=1000&sort=none&start=0&wt=json" ∧
    endpointAsSpecified ⟨"test-bucket", "A:1 AND B:2", 0, 0, "", ""⟩
        ⟨"192.168.50.4:8087", "192.168.50.4:8098"⟩ =
      "http://192.168.50.4:8098/solr/test-bucket/select?q=A%3A1+AND+B%3A2&q.op=and&start=0&rows=1000&sort=none&wt=json" ∧
    (SearchQuery.endpoint ⟨"test-bucket", "A:1 AND B:2", 0, 0, "", ""⟩
        ⟨"192.168.50.4:8087", "192.168.50.4:8098"⟩).1 ≠
      endpointAsSpecified ⟨"test-bucket", "A:1 AND B:2", 0, 0, "", ""⟩
        ⟨"192.168.50.4:8087", "192.168.50.4:8098"⟩ := by
  decide

/-- Claim C4 (amended): for every query `q` and database `d`, `endpoint(d)` fills in the
values by default (`Query` becomes `*` if empty, `Rows` 1000 if zero, `Sort` `none` if empty;
other values are kept, `Index` and `Start` are never changed), then returns the string
`http://{solr_addr}/solr/{Index}/select?q={Query}&q.op=and&rows={Rows}&sort={Sort}&start={Start}&wt=json`
with `Query` and `Sort` URL-encoded and the parameters in the increasing order of their
names, and stores that same string in `q.Endpoint`. -/
theorem endpoint_format (q : SearchQuery) (d : Database) :
    (q.endpoint d).2.Query = (if q.Query = "" then "*" else q.Query) ∧
    (q.endpoint d).2.Rows = (if q.Rows = 0 then 1000 else q.Rows) ∧
    (q.endpoint d).2.SortOrder = (if q.SortOrder = "" then "none" else q.SortOrder) ∧
    (q.endpoint d).2.Index = q.Index ∧
    (q.endpoint d).2.Start = q.Start ∧
    (q.endpoint d).1 =
      "http://" ++ d.solr_addr ++ "/solr/" ++ q.Index ++ "/select?q=" ++
        QueryEscape (q.endpoint d).2.Query ++ "&q.op=and&rows=" ++
        fmtUint (q.endpoint d).2.Rows ++ "&sort=" ++ QueryEscape (q.endpoint d).2.SortOrder ++
        "&start=" ++ fmtUint q.Start ++ "&wt=json" ∧
    (q.endpoint d).2.Endpoint = (q.endpoint d).1 := by
  rw [endpoint_value]
  refine ⟨rfl, rfl, rfl, rfl, rfl, ?_, rfl⟩
  apply String.ext
  simp only [String.data_append, List.append_assoc]
  rfl

/-! ## Registration of a bucket for search -/

/-- Claim C5: `MakeSearchable` returns no error if and only if the `PUT` completed with the
status 204; for a completed response with a status `s` other than 204 it returns the error
whose message is `riako: failure code from riak endpoint - ` followed by a decimal numeral
that reads back as `s`; a transport error of the `PUT` is returned unchanged. -/
theorem MakeSearchable_status (d : Database) (bucket : String) (http : Http) :
    (MakeSearchable d bucket http = .ret none ↔
      http.NewRequest "PUT" (searchableURL d bucket) = none ∧
      ∃ response, http.Do (searchableRequest d bucket) = .ok response ∧
        response.StatusCode = 204) ∧
    (http.NewRequest "PUT" (searchableURL d bucket) = none →
      (∀ response, http.Do (searchableRequest d bucket) = .ok response →
        response.StatusCode ≠ 204 →
        MakeSearchable d bucket http = .ret (some (.new
          ("riako: failure code from riak endpoint - " ++ fmtInt response.StatusCode))) ∧
        readInt (fmtInt response.StatusCode) = some response.StatusCode) ∧
      (∀ err, http.Do (searchableRequest d bucket) = .error err →
        MakeSearchable d bucket http = .ret (some err))) := by
  refine ⟨⟨?_, ?_⟩, ?_⟩
  · intro h
    unfold MakeSearchable at h
    cases hreq : http.NewRequest "PUT" (searchableURL d bucket) with
    | some e => rw [hreq] at h; cases h
    | none =>
      rw [hreq] at h
      cases hdo : http.Do (searchableRequest d bucket) with
      | error err =>
        simp only [hdo] at h
        cases h
      | ok response =>
        simp only [hdo] at h
        by_cases hs : response.StatusCode = 204
        · exact ⟨rfl, response, rfl, hs⟩
        · simp only [ne_eq, hs, not_false_eq_true, if_true] at h
          cases h
  · rintro ⟨hreq, response, hdo, hs⟩
    simp only [MakeSearchable, hreq, hdo, hs, ne_eq, not_true_eq_false, if_false]
  · intro hreq
    constructor
    · intro response hdo hs
      refine ⟨?_, readInt_fmtInt _⟩
      simp only [MakeSearchable, hreq, hdo, ne_eq, hs, not_false_eq_true, if_true]
    · intro err hdo
      simp only [MakeSearchable, hreq, hdo]

/-- Witness of C5: a completed `PUT` with the status 500 gives the error
`riako: failure code from riak endpoint - 500`. -/
theorem MakeSearchable_status_witness :
    MakeSearchable testDatabase "test-bucket"
        ⟨fun _ => .error .poolTimeout, fun _ _ => none, fun _ => .ok ⟨500, .ok ""⟩⟩ =
      .ret (some (.new "riako: failure code from riak endpoint - 500")) ∧
    (MakeSearchable testDatabase "test-bucket"
        ⟨fun _ => .error .poolTimeout, fun _ _ => none, fun _ => .ok ⟨500, .ok ""⟩⟩ =
      .ret (some (.new ("riako: failure code from riak endpoint - " ++ fmtInt 500))) ∧
     readInt (fmtInt 500) = some 500) :=
  ⟨by decide,
   ((MakeSearchable_status testDatabase "test-bucket"
      ⟨fun _ => .error .poolTimeout, fun _ _ => none, fun _ => .ok ⟨500, .ok ""⟩⟩).2 rfl).1
    ⟨500, .ok ""⟩ rfl (by decide)⟩

/-! ## Search -/

/-- Decoding of the envelope `{"response": {"numFound": n, "start": s, "docs": [...]}}`. -/
theorem decodeEnvelope_wellformed (fits : String → Bool) (n s : String) (docs : List Json)
    (N S : Nat) (hn : parseUint n = some N) (hs : parseUint s = some S)
    (hd : Json.allFit fits docs = true) :
    decodeEnvelope fits solrSearchResult.zero
        (.obj [("response", .obj [("numFound", .num n), ("start", .num s), ("docs", .arr docs)])]) =
      .ok (some ⟨⟨N, S, docs⟩⟩) := by
  have h1 : matchesField "Response" "response" = true := by decide
  have h2 : matchesField "NumFound" "numFound" = true := by decide
  have h3 : matchesField "NumFound" "start" = false := by decide
  have h4 : matchesField "Start" "start" = true := by decide
  have h5 : matchesField "NumFound" "docs" = false := by decide
  have h6 : matchesField "Start" "docs" = false := by decide
  have h7 : matchesField "Docs" "docs" = true := by decide
  simp only [decodeEnvelope, decodeMembers, decodeResultMember, decodeResponse,
    decodeResponseMember, decodeUint, decodeDocs, solrSearchResult.zero,
    h1, h2, h3, h4, h5, h6, h7, hn, hs, hd, if_true, if_false, Bool.false_eq_true]

/-- Decoding of an object none of whose members is named `response` changes nothing. -/
theorem decodeMembers_skip (fits : String → Bool) (res : solrSearchResult)
    (members : List (String × Json))
    (h : ∀ m ∈ members, matchesField "Response" m.1 = false) :
    decodeMembers (decodeResultMember fits) res members = .ok res := by
  induction members with
  | nil => rfl
  | cons m rest ih =>
    obtain ⟨k, j⟩ := m
    have hk : matchesField "Response" k = false := h (k, j) (List.mem_cons_self _ _)
    simp only [decodeMembers, decodeResultMember, hk, Bool.false_eq_true, if_false]
    exact ih (fun x hx => h x (List.mem_cons_of_mem _ hx))

/-- A JSON value other than an object or `null` is a type error for the envelope. -/
theorem decodeEnvelope_not_object (fits : String → Bool) (j : Json)
    (hobj : ∀ members, j ≠ .obj members) (hnull : j ≠ .null) :
    ∃ e, decodeEnvelope fits solrSearchResult.zero j = .error e := by
  cases j with
  | null => exact absurd rfl hnull
  | obj members => exact absurd rfl (hobj members)
  | bool b => exact ⟨_, rfl⟩
  | num lit => exact ⟨_, rfl⟩
  | str t => exact ⟨_, rfl⟩
  | arr items => exact ⟨_, rfl⟩

/-- A `response` member other than an object or `null` is a type error. -/
theorem decodeEnvelope_bad_response (fits : String → Bool) (j : Json)
    (hobj : ∀ members, j ≠ .obj members) (hnull : j ≠ .null) :
    ∃ e, decodeEnvelope fits solrSearchResult.zero (.obj [("response", j)]) = .error e := by
  have h1 : matchesField "Response" "response" = true := by decide
  cases j with
  | null => exact absurd rfl hnull
  | obj members => exact absurd rfl (hobj members)
  | bool b =>
    exact ⟨typeError "struct", by
      simp only [decodeEnvelope, decodeMembers, decodeResultMember, h1, if_true, decodeResponse]⟩
  | num lit =>
    exact ⟨typeError "struct", by
      simp only [decodeEnvelope, decodeMembers, decodeResultMember, h1, if_true, decodeResponse]⟩
  | str t =>
    exact ⟨typeError "struct", by
      simp only [decodeEnvelope, decodeMembers, decodeResultMember, h1, if_true, decodeResponse]⟩
  | arr items =>
    exact ⟨typeError "struct", by
      simp only [decodeEnvelope, decodeMembers, decodeResultMember, h1, if_true, decodeResponse]⟩

/-- A `numFound` that is not the numeral of a `uint64`, or `docs` with a number that does
not fit a `float64`, is a type error. -/
theorem decodeEnvelope_bad_member (fits : String → Bool) :
    (∀ n, parseUint n = none → ∃ e, decodeEnvelope fits solrSearchResult.zero
      (.obj [("response", .obj [("numFound", .num n)])]) = .error e) ∧
    (∀ docs, Json.allFit fits docs = false → ∃ e, decodeEnvelope fits solrSearchResult.zero
      (.obj [("response", .obj [("docs", .arr docs)])]) = .error e) := by
  have h1 : matchesField "Response" "response" = true := by decide
  have h2 : matchesField "NumFound" "numFound" = true := by decide
  have h5 : matchesField "NumFound" "docs" = false := by decide
  have h6 : matchesField "Start" "docs" = false := by decide
  have h7 : matchesField "Docs" "docs" = true := by decide
  constructor
  · intro n hn
    exact ⟨typeError "uint64", by
      simp only [decodeEnvelope, decodeMembers, decodeResultMember, decodeResponse,
        decodeResponseMember, decodeUint, h1, h2, hn, if_true]⟩
  · intro docs hd
    exact ⟨typeError "float64", by
      simp only [decodeEnvelope, decodeMembers, decodeResultMember, decodeResponse,
        decodeResponseMember, decodeDocs, h1, h5, h6, h7, hd, if_true, if_false,
        Bool.false_eq_true]⟩

/-- Claim C6, as stated, fails: when the body of the response is the JSON object `{}`, which
has no `response` member, `Search` returns no error and the result with `Total = 0`,
`Start = 0` and no documents. -/
theorem Search_missing_response_counterexample :
    Search (fun s => if s = "\x7b\x7d" then some (.obj []) else none) (fun _ => true)
        testDatabase ⟨"test-bucket", "A:1 AND B:2", 0, 0, "", ""⟩
        ⟨fun _ => .ok ⟨200, .ok "\x7b\x7d"⟩, fun _ _ => none, fun _ => .error .poolTimeout⟩ =
      .ret ((some ⟨[], 0, 0⟩, none),
        (SearchQuery.endpoint ⟨"test-bucket", "A:1 AND B:2", 0, 0, "", ""⟩ testDatabase).2) ∧
    ¬ ∃ (e : Err) (q : SearchQuery),
      Search (fun s => if s = "\x7b\x7d" then some (.obj []) else none) (fun _ => true)
        testDatabase ⟨"test-bucket", "A:1 AND B:2", 0, 0, "", ""⟩
        ⟨fun _ => .ok ⟨200, .ok "\x7b\x7d"⟩, fun _ _ => none, fun _ => .error .poolTimeout⟩ =
      .ret ((none, some e), q) := by
  have h : Search (fun s => if s = "\x7b\x7d" then some (.obj []) else none) (fun _ => true)
        testDatabase ⟨"test-bucket", "A:1 AND B:2", 0, 0, "", ""⟩
        ⟨fun _ => .ok ⟨200, .ok "\x7b\x7d"⟩, fun _ _ => none, fun _ => .error .poolTimeout⟩ =
      .ret ((some ⟨[], 0, 0⟩, none),
        (SearchQuery.endpoint ⟨"test-bucket", "A:1 AND B:2", 0, 0, "", ""⟩ testDatabase).2) := rfl
  refine ⟨h, ?_⟩
  rintro ⟨e, q, he⟩
  rw [h] at he
  injection he with he
  injection he with he1 he2
  injection he1 with he3 he4
  cases he3

/-- Claim C6 (amended): `Search` returns a `SearchResult` exactly when the `GET` succeeded,
the body was read and `json.Unmarshal` decodes it, a JSON object, without error into the
envelope struct, and then `Total`, `Start` and `Results` are the decoded `NumFound`, `Start`
and `Docs`; on
the envelope `{response: {numFound, start, docs}}` that is `Total = numFound`,
`Start = start` and `Results = docs` in the same order, and on a JSON object with no
`response` member that is `Total = 0`, `Start = 0` and no results, with no error.  It
returns an error and no result on a transport error, on a body that cannot be read and
whenever `json.Unmarshal` reports an error, which it does for a body that is not JSON, for
a JSON value other than an object or `null`, for a `response` member other than an object
or `null`, for a `numFound` that is not the numeral of a `uint64` and for `docs` holding a
number that does not fit a `float64`. -/
theorem Search_result (parse : String → Option Json) (fits : String → Bool) (d : Database)
    (query : SearchQuery) (http : Http) :
    (∀ r, Search parse fits d query http = .ret ((some r, none), (query.endpoint d).2) ↔
      ∃ raw data env, http.Get (query.endpoint d).1 = .ok raw ∧ raw.Body = .ok data ∧
        unmarshalEnvelope parse fits data solrSearchResult.zero = .ok (some env) ∧
        r = ⟨env.Response.Docs, env.Response.Start, env.Response.NumFound⟩) ∧
    (∀ e, http.Get (query.endpoint d).1 = .error e →
      Search parse fits d query http = .ret ((none, some e), (query.endpoint d).2)) ∧
    (∀ raw e, http.Get (query.endpoint d).1 = .ok raw → raw.Body = .error e →
      Search parse fits d query http = .ret ((none, some e), (query.endpoint d).2)) ∧
    (∀ raw data, http.Get (query.endpoint d).1 = .ok raw → raw.Body = .ok data →
      (∀ env, unmarshalEnvelope parse fits data solrSearchResult.zero = .ok (some env) ↔
        ∃ members, parse data = some (.obj members) ∧
          decodeMembers (decodeResultMember fits) solrSearchResult.zero members = .ok env) ∧
      (∀ e, unmarshalEnvelope parse fits data solrSearchResult.zero = .error e →
        Search parse fits d query http = .ret ((none, some e), (query.endpoint d).2)) ∧
      (parse data = none →
        ∃ e, Search parse fits d query http = .ret ((none, some e), (query.endpoint d).2)) ∧
      (∀ j, parse data = some j → (∀ members, j ≠ .obj members) → j ≠ .null →
        ∃ e, Search parse fits d query http = .ret ((none, some e), (query.endpoint d).2)) ∧
      (∀ j, parse data = some (.obj [("response", j)]) →
        (∀ members, j ≠ .obj members) → j ≠ .null →
        ∃ e, Search parse fits d query http = .ret ((none, some e), (query.endpoint d).2)) ∧
      (∀ n, parse data = some (.obj [("response", .obj [("numFound", .num n)])]) →
        parseUint n = none →
        ∃ e, Search parse fits d query http = .ret ((none, some e), (query.endpoint d).2)) ∧
      (∀ docs, parse data = some (.obj [("response", .obj [("docs", .arr docs)])]) →
        Json.allFit fits docs = false →
        ∃ e, Search parse fits d query http = .ret ((none, some e), (query.endpoint d).2)) ∧
      (∀ n s docs N S,
        parse data = some (.obj [("response",
          .obj [("numFound", .num n), ("start", .num s), ("docs", .arr docs)])]) →
        parseUint n = some N → parseUint s = some S → Json.allFit fits docs = true →
        Search parse fits d query http =
          .ret ((some ⟨docs, S, N⟩, none), (query.endpoint d).2)) ∧
      (∀ members, parse data = some (.obj members) →
        (∀ m ∈ members, matchesField "Response" m.1 = false) →
        Search parse fits d query http =
          .ret ((some ⟨[], 0, 0⟩, none), (query.endpoint d).2))) := by
  refine ⟨?_, ?_, ?_, ?_⟩
  · intro r
    constructor
    · intro h
      unfold Search at h
      cases hget : http.Get (query.endpoint d).1 with
      | error e => simp only [hget] at h; cases h
      | ok raw =>
        simp only [hget] at h
        cases hbody : raw.Body with
        | error e => simp only [hbody] at h; cases h
        | ok data =>
          simp only [hbody] at h
          cases henv : unmarshalEnvelope parse fits data solrSearchResult.zero with
          | error e => simp only [henv] at h; cases h
          | ok res =>
            cases res with
            | none => simp only [henv] at h; cases h
            | some env =>
              simp only [henv] at h
              refine ⟨raw, data, env, rfl, hbody, henv, ?_⟩
              injection h with h
              injection h with h1 h2
              injection h1 with h3 h4
              injection h3 with h5
              exact h5.symm
    · rintro ⟨raw, data, env, hget, hbody, henv, rfl⟩
      simp only [Search, hget, hbody, henv]
  · intro e hget
    simp only [Search, hget]
  · intro raw e hget hbody
    simp only [Search, hget, hbody]
  · intro raw data hget hbody
    have herr : ∀ e, unmarshalEnvelope parse fits data solrSearchResult.zero = .error e →
        Search parse fits d query http = .ret ((none, some e), (query.endpoint d).2) := by
      intro e he
      simp only [Search, hget, hbody, he]
    refine ⟨?_, herr, ?_, ?_, ?_, ?_, ?_, ?_, ?_⟩
    · intro env
      unfold unmarshalEnvelope
      cases hp : parse data with
      | none =>
        dsimp only
        exact ⟨fun h => (by cases h), fun ⟨m, h, _⟩ => (by cases h)⟩
      | some j =>
        dsimp only
        cases j with
        | null => exact ⟨fun h => (by cases h), fun ⟨m, h, _⟩ => (by cases h)⟩
        | bool b => exact ⟨fun h => (by cases h), fun ⟨m, h, _⟩ => (by cases h)⟩
        | num lit => exact ⟨fun h => (by cases h), fun ⟨m, h, _⟩ => (by cases h)⟩
        | str t => exact ⟨fun h => (by cases h), fun ⟨m, h, _⟩ => (by cases h)⟩
        | arr items => exact ⟨fun h => (by cases h), fun ⟨m, h, _⟩ => (by cases h)⟩
        | obj members =>
          cases hm : decodeMembers (decodeResultMember fits) solrSearchResult.zero members with
          | error e =>
            simp only [decodeEnvelope, hm]
            constructor
            · intro h; cases h
            · rintro ⟨m, h, hd⟩
              injection h with h
              injection h with h
              subst h
              rw [hm] at hd
              cases hd
          | ok res =>
            simp only [decodeEnvelope, hm]
            constructor
            · intro h
              injection h with h
              injection h with h
              subst h
              exact ⟨members, rfl, hm⟩
            · rintro ⟨m, h, hd⟩
              injection h with h
              injection h with h
              subst h
              rw [hm] at hd
              injection hd with hd
              subst hd
              rfl
    · intro hp
      exact ⟨.json "invalid character", herr _ (by simp only [unmarshalEnvelope, hp])⟩
    · intro j hp hobj hnull
      obtain ⟨e, he⟩ := decodeEnvelope_not_object fits j hobj hnull
      exact ⟨e, herr e (by simp only [unmarshalEnvelope, hp, he])⟩
    · intro j hp hobj hnull
      obtain ⟨e, he⟩ := decodeEnvelope_bad_response fits j hobj hnull
      exact ⟨e, herr e (by simp only [unmarshalEnvelope, hp, he])⟩
    · intro n hp hn
      obtain ⟨e, he⟩ := (decodeEnvelope_bad_member fits).1 n hn
      exact ⟨e, herr e (by simp only [unmarshalEnvelope, hp, he])⟩
    · intro docs hp hd
      obtain ⟨e, he⟩ := (decodeEnvelope_bad_member fits).2 docs hd
      exact ⟨e, herr e (by simp only [unmarshalEnvelope, hp, he])⟩
    · intro n s docs N S hp hn hs hd
      simp only [Search, hget, hbody, unmarshalEnvelope, hp,
        decodeEnvelope_wellformed fits n s docs N S hn hs hd]
    · intro members hp hm
      simp only [Search, hget, hbody, unmarshalEnvelope, hp, decodeEnvelope,
        decodeMembers_skip fits _ members hm, solrSearchResult.zero]

/-- Witness of C6: the envelope of a search with one match. -/
theorem Search_result_witness :
    Search (fun _ => some (.obj [("response",
          .obj [("numFound", .num "1"), ("start", .num "0"), ("docs", .arr [.str "doc"])])]))
        (fun _ => true) testDatabase ⟨"test-bucket", "A:1 AND B:2", 0, 0, "", ""⟩
        ⟨fun _ => .ok ⟨200, .ok "body"⟩, fun _ _ => none, fun _ => .error .poolTimeout⟩ =
      .ret ((some ⟨[.str "doc"], 0, 1⟩, none),
        (SearchQuery.endpoint ⟨"test-bucket", "A:1 AND B:2", 0, 0, "", ""⟩ testDatabase).2) :=
  ((Search_result (fun _ => some (.obj [("response",
          .obj [("numFound", .num "1"), ("start", .num "0"), ("docs", .arr [.str "doc"])])]))
        (fun _ => true) testDatabase ⟨"test-bucket", "A:1 AND B:2", 0, 0, "", ""⟩
        ⟨fun _ => .ok ⟨200, .ok "body"⟩, fun _ _ => none,
          fun _ => .error .poolTimeout⟩).2.2.2 ⟨200, .ok "body"⟩ "body" rfl rfl).2.2.2.2.2.2.2.1
    "1" "0" [.str "doc"] 1 0 rfl (by decide) (by decide) rfl

/-! ## Connections -/

/-- What `getConnection` does, case by case on the pool and the network. -/
theorem getConnection_cases (d : Database) (net : Net) (w : World) :
    (∃ c, getConnection d net w = (.ok c, { w with pool := { w.pool with
        idle := w.pool.idle.tail, out := c :: w.pool.out } })) ∨
    (∃ e, e ≠ Err.ErrObjectNotFound ∧
      (getConnection d net w).1 = .error e ∧
      (getConnection d net w).2.objects = w.objects ∧
      (getConnection d net w).2.pool.released = w.pool.released) := by
  obtain ⟨⟨cap, idle, out, released⟩, objects⟩ := w
  cases idle with
  | cons c rest =>
    cases hd : net.dial with
    | none =>
      exact Or.inl ⟨c, by simp [getConnection, Pool.Get, hd]⟩
    | some msg =>
      exact Or.inr ⟨.transport msg, by simp, by simp [getConnection, Pool.Get, hd]⟩
  | nil =>
    by_cases hcap : out.length < cap
    · cases hc : net.connect with
      | error msg =>
        exact Or.inr ⟨.transport msg, by simp, by simp [getConnection, Pool.Get, hcap, hc]⟩
      | ok c =>
        cases hd : net.dial with
        | none =>
          exact Or.inl ⟨c, by simp [getConnection, Pool.Get, Pool.Register, hcap, hc, hd]⟩
        | some msg =>
          exact Or.inr ⟨.transport msg, by simp,
            by simp [getConnection, Pool.Get, Pool.Register, hcap, hc, hd]⟩
    · exact Or.inr ⟨.poolTimeout, by simp, by simp [getConnection, Pool.Get, hcap]⟩

/-- A successful `getConnection` checks the connection out and touches nothing else. -/
theorem getConnection_ok (d : Database) (net : Net) (w w1 : World) (c : Conn)
    (h : getConnection d net w = (.ok c, w1)) :
    w1 = { w with pool := { w.pool with idle := w.pool.idle.tail, out := c :: w.pool.out } } := by
  rcases getConnection_cases d net w with ⟨c1, h1⟩ | ⟨e, -, he, -⟩
  · rw [h1] at h
    injection h with h2 h3
    injection h2 with h4
    rw [← h3, h4]
  · rw [h] at he
    cases he

/-- A failed `getConnection` reports an error other than the not-found sentinel and leaves
the records and the log of releases as they were. -/
theorem getConnection_error (d : Database) (net : Net) (w w1 : World) (e : Err)
    (h : getConnection d net w = (.error e, w1)) :
    e ≠ .ErrObjectNotFound ∧ w1.objects = w.objects ∧ w1.pool.released = w.pool.released := by
  rcases getConnection_cases d net w with ⟨c1, h1⟩ | ⟨e1, hne, he, ho, hr⟩
  · rw [h1] at h
    injection h with h2 h3
    cases h2
  · rw [h] at he ho hr
    injection he with he
    exact ⟨he ▸ hne, ho, hr⟩

theorem Get_world {V : Type} (unmarshal : String → V → Except String V) (d : Database)
    (bucket key : String) (target : V) (net : Net) (w w1 : World) (c : Conn)
    (h : getConnection d net w = (.ok c, w1)) :
    (Get unmarshal d bucket key target net w).2 = (putConnection d c w1).2 := by
  unfold Get
  rw [h]
  dsimp only
  split
  · rfl
  · split <;> rfl

theorem Get_world_error {V : Type} (unmarshal : String → V → Except String V) (d : Database)
    (bucket key : String) (target : V) (net : Net) (w w1 : World) (e : Err)
    (h : getConnection d net w = (.error e, w1)) :
    Get unmarshal d bucket key target net w = ((some e, target), w1) := by
  unfold Get
  rw [h]

theorem Put_world {V : Type} (marshal : V → Except String String) (d : Database)
    (bucket key : String) (value : V) (net : Net) (w w1 : World) (c : Conn) (b : String)
    (hm : marshal value = .ok b) (h : getConnection d net w = (.ok c, w1)) :
    Put marshal d bucket key value net w =
      ((StoreObject bucket key b net w1).1,
        (putConnection d c (StoreObject bucket key b net w1).2).2) := by
  unfold Put
  rw [hm]
  dsimp only
  rw [h]

theorem StoreObject_pool (bucket key b : String) (net : Net) (w : World) :
    (StoreObject bucket key b net w).2.pool = w.pool := by
  unfold StoreObject
  split <;> rfl

theorem DeleteObject_pool (bucket key : String) (net : Net) (w : World) :
    (DeleteObject bucket key net w).2.pool = w.pool := by
  unfold DeleteObject
  split <;> rfl

/-! ## Release of the connection -/

/-- Claim C9: in a call of `Get` or of `Put` whose `getConnection` succeeds with the
connection `c`, `c` is put back exactly once whatever the fetch, the decoding or the store
do: the log of releases grows by the one entry `c` and as many connections are outstanding
as before the call; when `getConnection` fails nothing is put back; in a call of `Delete`
whose `getConnection` succeeds nothing is put back and one more connection is outstanding
after the call than before. -/
theorem release_discipline {V : Type} (unmarshal : String → V → Except String V)
    (marshal : V → Except String String) (d : Database) (bucket key : String)
    (target value : V) (net : Net) (w : World) :
    (∀ c w1, getConnection d net w = (.ok c, w1) →
      (Get unmarshal d bucket key target net w).2.pool.released = c :: w.pool.released ∧
      (Get unmarshal d bucket key target net w).2.pool.out = w.pool.out ∧
      (∀ b, marshal value = .ok b →
        (Put marshal d bucket key value net w).2.pool.released = c :: w.pool.released ∧
        (Put marshal d bucket key value net w).2.pool.out = w.pool.out) ∧
      (Delete d bucket key net w).2.pool.released = w.pool.released ∧
      (Delete d bucket key net w).2.pool.out.length = w.pool.out.length + 1) ∧
    (∀ e w1, getConnection d net w = (.error e, w1) →
      (Get unmarshal d bucket key target net w).2.pool.released = w.pool.released ∧
      (Put marshal d bucket key value net w).2.pool.released = w.pool.released ∧
      (Delete d bucket key net w).2.pool.released = w.pool.released) := by
  constructor
  · intro c w1 h
    have hw := getConnection_ok d net w w1 c h
    refine ⟨?_, ?_, ?_, ?_, ?_⟩
    · rw [Get_world unmarshal d bucket key target net w w1 c h, hw]
      rfl
    · rw [Get_world unmarshal d bucket key target net w w1 c h, hw]
      simp [putConnection, Pool.Put]
    · intro b hm
      rw [Put_world marshal d bucket key value net w w1 c b hm h]
      simp only [putConnection, Pool.Put, StoreObject_pool, hw]
      simp
    · simp only [Delete, h, DeleteObject_pool, hw]
    · simp only [Delete, h, DeleteObject_pool, hw, List.length_cons]
  · intro e w1 h
    obtain ⟨-, -, hr⟩ := getConnection_error d net w w1 e h
    refine ⟨?_, ?_, ?_⟩
    · rw [Get_world_error unmarshal d bucket key target net w w1 e h]
      exact hr
    · unfold Put
      cases marshal value with
      | error msg => rfl
      | ok b =>
        dsimp only
        rw [h]
        exact hr
    · simp only [Delete, h]
      exact hr

/-- Witness of C9: a first call on the empty pool of the tests. -/
theorem release_discipline_witness :
    (Get (fun s _ => .ok s) testDatabase "test-bucket" "1" "" goodNet testWorld).2.pool.released
      = [7] ∧
    (Delete testDatabase "test-bucket" "1" goodNet testWorld).2.pool.out.length = 1 :=
  ⟨((release_discipline (fun s _ => .ok s) (fun v => .ok v) testDatabase "test-bucket" "1" ""
      "v" goodNet testWorld).1 7 _ rfl).1,
   ((release_discipline (fun s (_ : String) => .ok s) (fun v => .ok v) testDatabase
      "test-bucket" "1" "" "v" goodNet testWorld).1 7 _ rfl).2.2.2.2⟩

/-! ## Round trip of `Put` and `Get` -/

theorem getConnection_objects (d : Database) (net : Net) (w : World) :
    (getConnection d net w).2.objects = w.objects := by
  rcases getConnection_cases d net w with ⟨c1, h1⟩ | ⟨e1, -, -, ho, -⟩
  · rw [h1]
  · exact ho

/-- Claim C1: if `Put(bucket, key, v)` returns no error, and the backend answers the
following `Get(bucket, key, &o)` (a connection is acquired and the fetch meets no transport
failure), and decoding the JSON encoding of `v` gives `v`, then the fetch of `Get` returns
exactly the bytes `Put` stored, `Get` returns no error and leaves the target equal to `v`. -/
theorem put_get_roundtrip {V : Type} (marshal : V → Except String String)
    (unmarshal : String → V → Except String V) (d : Database) (bucket key : String)
    (v o : V) (netP netG : Net) (w : World) (c : Conn)
    (hput : (Put marshal d bucket key v netP w).1 = none)
    (hconn : (getConnection d netG (Put marshal d bucket key v netP w).2).1 = .ok c)
    (hreq : netG.request = none)
    (hjson : ∀ b, marshal v = .ok b → unmarshal b o = .ok v) :
    (∃ b, marshal v = .ok b ∧
      FetchObject bucket key netG (getConnection d netG (Put marshal d bucket key v netP w).2).2
        = .ok b) ∧
    (Get unmarshal d bucket key o netG (Put marshal d bucket key v netP w).2).1 = (none, v) := by
  cases hm : marshal v with
  | error msg =>
    simp only [Put, hm] at hput
    cases hput
  | ok b =>
    rcases getConnection_cases d netP w with ⟨cP, hP⟩ | ⟨e, -, he, -, -⟩
    · have hPut := Put_world marshal d bucket key v netP w _ cP b hm hP
      rw [hPut] at hput hconn ⊢
      have hstore : netP.request = none := by
        cases hr : netP.request with
        | none => rfl
        | some msg =>
          simp only [StoreObject, hr] at hput
          cases hput
      have hobj : (getConnection d netG (putConnection d cP (StoreObject bucket key b netP
          { w with pool := { w.pool with idle := w.pool.idle.tail, out := cP :: w.pool.out } }).2).2).2.objects
          = ((bucket, key), b) :: w.objects := by
        rw [getConnection_objects]
        simp only [putConnection, StoreObject, hstore]
      have hfetch : FetchObject bucket key netG (getConnection d netG (putConnection d cP
          (StoreObject bucket key b netP { w with pool := { w.pool with
            idle := w.pool.idle.tail, out := cP :: w.pool.out } }).2).2).2 = .ok b := by
        simp only [FetchObject, hreq, hobj, List.lookup_cons, beq_self_eq_true]
      refine ⟨⟨b, rfl, hfetch⟩, ?_⟩
      unfold Get
      cases hg : getConnection d netG (putConnection d cP (StoreObject bucket key b netP
          { w with pool := { w.pool with idle := w.pool.idle.tail, out := cP :: w.pool.out } }).2).2 with
      | mk r wG =>
        rw [hg] at hconn hfetch
        dsimp only at hconn hfetch
        subst hconn
        dsimp only
        rw [hfetch]
        dsimp only
        rw [hjson b hm]
    · have hPe : (Put marshal d bucket key v netP w).1 = some e := by
        unfold Put
        rw [hm]
        dsimp only
        cases hg : getConnection d netP w with
        | mk r wP =>
          rw [hg] at he
          dsimp only at he
          subst he
          rfl
      rw [hPe] at hput
      cases hput

/-- Witness of C1: the value `Hello` through a codec that quotes a string. -/
theorem put_get_roundtrip_witness :
    (Get (fun s (_ : String) => if s = "\"Hello\"" then .ok "Hello" else .error "unsupported")
      testDatabase "test-bucket" "1" "" goodNet
      (Put (fun v => .ok ("\"" ++ v ++ "\"")) testDatabase "test-bucket" "1" "Hello" goodNet
        testWorld).2).1 = (none, "Hello") :=
  (put_get_roundtrip (fun v => .ok ("\"" ++ v ++ "\""))
    (fun s (_ : String) => if s = "\"Hello\"" then .ok "Hello" else .error "unsupported")
    testDatabase "test-bucket" "1" "Hello" "" goodNet goodNet testWorld 7 rfl rfl rfl
    (fun b hb => by
      injection hb with hb
      subst hb
      rfl)).2

/-! ## Unused keys -/

theorem Get_objects {V : Type} (unmarshal : String → V → Except String V) (d : Database)
    (bucket key : String) (target : V) (net : Net) (w : World) :
    (Get unmarshal d bucket key target net w).2.objects = w.objects := by
  cases hg : getConnection d net w with
  | mk r w1 =>
    have ho := getConnection_objects d net w
    rw [hg] at ho
    cases r with
    | error e =>
      rw [Get_world_error unmarshal d bucket key target net w w1 e hg]
      exact ho
    | ok c =>
      rw [Get_world unmarshal d bucket key target net w w1 c hg]
      exact ho

/-- A probe that reports the not-found sentinel met no record under its key. -/
theorem Get_not_found {V : Type} (unmarshal : String → V → Except String V) (d : Database)
    (bucket key : String) (target : V) (net : Net) (w : World)
    (h : (Get unmarshal d bucket key target net w).1.1 = some .ErrObjectNotFound) :
    w.objects.lookup (bucket, key) = none := by
  cases hg : getConnection d net w with
  | mk r w1 =>
    have ho := getConnection_objects d net w
    rw [hg] at ho
    dsimp only at ho
    cases r with
    | error e =>
      rw [Get_world_error unmarshal d bucket key target net w w1 e hg] at h
      injection h with h
      exact absurd h (getConnection_error d net w w1 e hg).1
    | ok c =>
      unfold Get at h
      rw [hg] at h
      dsimp only at h
      unfold FetchObject at h
      rw [ho] at h
      cases hr : net.request with
      | some msg =>
        rw [hr] at h
        cases h
      | none =>
        rw [hr] at h
        dsimp only at h
        cases hl : w.objects.lookup (bucket, key) with
        | none => rfl
        | some content =>
          rw [hl] at h
          dsimp only at h
          cases hu : unmarshal content target with
          | error msg => rw [hu] at h; cases h
          | ok v => rw [hu] at h; cases h

/-- A key returned by `UnusedKey` was generated in one of its turns and probed there with
the answer not-found, on the records the call started with. -/
theorem UnusedKey_returns (unmarshal : String → Json → Except String Json) (d : Database)
    (bucket : String) (n : Int) :
    ∀ (attempts : List Attempt) (w : World) (k : String) (w2 : World),
      UnusedKey unmarshal d bucket n attempts w = some (.ret k, w2) →
      w.objects.lookup (bucket, k) = none ∧ w2.objects = w.objects ∧
      ∃ a ∈ attempts, ∃ w1 t, generateKey n a.src a.now = .ret (k, none) ∧
        w1.objects = w.objects ∧
        Get unmarshal d bucket k Json.null a.net w1 = ((some .ErrObjectNotFound, t), w2) := by
  intro attempts
  induction attempts with
  | nil => intro w k w2 h; cases h
  | cons a rest ih =>
    intro w k w2 h
    unfold UnusedKey at h
    cases hgen : generateKey n a.src a.now with
    | panic p => rw [hgen] at h; cases h
    | ret r =>
      obtain ⟨key, oe⟩ := r
      cases oe with
      | some e => rw [hgen] at h; cases h
      | none =>
        rw [hgen] at h
        dsimp only at h
        cases hget : Get unmarshal d bucket key Json.null a.net w with
        | mk r1 w1 =>
          obtain ⟨ge, t⟩ := r1
          have hobj := Get_objects unmarshal d bucket key Json.null a.net w
          rw [hget] at hobj h
          dsimp only at hobj h
          cases ge with
          | none =>
            dsimp only at h
            obtain ⟨h1, h2, a1, ha1, w3, t1, h3, h4, h5⟩ := ih w1 k w2 h
            exact ⟨hobj ▸ h1, h2.trans hobj, a1, List.mem_cons_of_mem _ ha1, w3, t1, h3,
              h4.trans hobj, h5⟩
          | some e =>
            dsimp only at h
            by_cases he : e = .ErrObjectNotFound
            · rw [if_pos he] at h
              injection h with h
              injection h with hk hw
              injection hk with hk
              subst hk hw he
              have hnf := Get_not_found unmarshal d bucket key Json.null a.net w
                (by rw [hget])
              exact ⟨hnf, hobj, a, List.mem_cons_self _ _, w, t, hgen, rfl, hget⟩
            · rw [if_neg he] at h
              cases h

/-- Claim C2: whenever `UnusedKey(bucket, n)` returns a key `k`, `k` was generated in one
of its turns and the probe `Get(bucket, k)` of that turn returned
`riakpbc.ErrObjectNotFound`, so no record was stored under `(bucket, k)` when it was probed,
nor when the call started; whenever `Create(bucket, v)` returns `k` with no error, `k` is
the key `UnusedKey(bucket, 32)` returned, so `k` did not exist in the bucket at call
time. -/
theorem creation_uniqueness (unmarshal : String → Json → Except String Json) (d : Database)
    (bucket : String) :
    (∀ (n : Int) (attempts : List Attempt) (w : World) (k : String) (w2 : World),
      UnusedKey unmarshal d bucket n attempts w = some (.ret k, w2) →
      ∃ a ∈ attempts, ∃ w1 t, generateKey n a.src a.now = .ret (k, none) ∧
        Get unmarshal d bucket k Json.null a.net w1 = ((some .ErrObjectNotFound, t), w2) ∧
        w1.objects.lookup (bucket, k) = none ∧ w1.objects = w.objects ∧
        w.objects.lookup (bucket, k) = none) ∧
    (∀ (V : Type) (marshal : V → Except String String) (value : V) (attempts : List Attempt)
      (net : Net) (w : World) (k : String) (w3 : World),
      Create unmarshal marshal d bucket value attempts net w = some (.ret (k, none), w3) →
      w.objects.lookup (bucket, k) = none ∧
      ∃ w2, UnusedKey unmarshal d bucket 32 attempts w = some (.ret k, w2)) := by
  constructor
  · intro n attempts w k w2 h
    obtain ⟨h1, -, a, ha, w1, t, h3, h4, h5⟩ := UnusedKey_returns unmarshal d bucket n attempts w k w2 h
    exact ⟨a, ha, w1, t, h3, h5, h4 ▸ h1, h4, h1⟩
  · intro V marshal value attempts net w k w3 h
    unfold Create at h
    cases hu : UnusedKey unmarshal d bucket 32 attempts w with
    | none => rw [hu] at h; cases h
    | some r =>
      obtain ⟨o, w1⟩ := r
      cases o with
      | panic p => rw [hu] at h; cases h
      | ret key =>
        rw [hu] at h
        dsimp only at h
        cases hp : Put marshal d bucket key value net w1 with
        | mk e w2 =>
          rw [hp] at h
          cases e with
          | some e => cases h
          | none =>
            dsimp only at h
            injection h with h
            injection h with hk hw
            injection hk with hk
            injection hk with hk
            subst hk
            exact ⟨(UnusedKey_returns unmarshal d bucket 32 attempts w key w1 hu).1, w1, rfl⟩

/-- Witness of C2: the first candidate exists and is discarded, the second is returned. -/
theorem creation_uniqueness_witness :
    ∃ a ∈ [firstAttempt, secondAttempt], ∃ w1 t,
      generateKey 9 a.src a.now = .ret ("ff01020304054b07bf-17", none) ∧
      Get acceptAll testDatabase "test-bucket" "ff01020304054b07bf-17" Json.null a.net w1 =
        ((some .ErrObjectNotFound, t),
          ⟨⟨20, [7], [], [7, 7]⟩, [(("test-bucket", "000102030405460788-17"), "1")]⟩) ∧
      w1.objects.lookup ("test-bucket", "ff01020304054b07bf-17") = none ∧
      w1.objects = occupiedWorld.objects ∧
      occupiedWorld.objects.lookup ("test-bucket", "ff01020304054b07bf-17") = none :=
  (creation_uniqueness acceptAll testDatabase "test-bucket").1 9 [firstAttempt, secondAttempt]
    occupiedWorld "ff01020304054b07bf-17"
    ⟨⟨20, [7], [], [7, 7]⟩, [(("test-bucket", "000102030405460788-17"), "1")]⟩ rfl

/-! ## The loop of `UnusedKey` -/

/-- After turns that all discard their candidate, the loop goes on with the turns that
follow, in the world the last probe left. -/
theorem UnusedKey_append (unmarshal : String → Json → Except String Json) (d : Database)
    (bucket : String) (n : Int) :
    ∀ (pre : List Attempt) (w w1 : World), discards unmarshal d bucket n pre w = some w1 →
      ∀ rest, UnusedKey unmarshal d bucket n (pre ++ rest) w =
        UnusedKey unmarshal d bucket n rest w1 := by
  intro pre
  induction pre with
  | nil =>
    intro w w1 h rest
    injection h with h
    subst h
    rfl
  | cons a pre ih =>
    intro w w1 h rest
    unfold discards at h
    rw [List.cons_append]
    conv_lhs => unfold UnusedKey
    cases hgen : generateKey n a.src a.now with
    | panic p => rw [hgen] at h; cases h
    | ret r =>
      obtain ⟨key, oe⟩ := r
      cases oe with
      | some e => rw [hgen] at h; cases h
      | none =>
        rw [hgen] at h
        dsimp only at h ⊢
        cases hget : Get unmarshal d bucket key Json.null a.net w with
        | mk r1 w2 =>
          obtain ⟨ge, t⟩ := r1
          rw [hget] at h
          cases ge with
          | some e => cases h
          | none =>
            dsimp only at h ⊢
            exact ih w2 w1 h rest

/-- The loop is still running after a list of turns exactly when each of them discarded its
candidate. -/
theorem UnusedKey_running (unmarshal : String → Json → Except String Json) (d : Database)
    (bucket : String) (n : Int) :
    ∀ (pre : List Attempt) (w : World),
      UnusedKey unmarshal d bucket n pre w = none ↔
        ∃ w1, discards unmarshal d bucket n pre w = some w1 := by
  intro pre
  induction pre with
  | nil => intro w; exact ⟨fun _ => ⟨w, rfl⟩, fun _ => rfl⟩
  | cons a pre ih =>
    intro w
    unfold UnusedKey discards
    cases hgen : generateKey n a.src a.now with
    | panic p => exact ⟨fun h => (by cases h), fun ⟨w1, h⟩ => (by cases h)⟩
    | ret r =>
      obtain ⟨key, oe⟩ := r
      cases oe with
      | some e => exact ⟨fun h => (by cases h), fun ⟨w1, h⟩ => (by cases h)⟩
      | none =>
        dsimp only
        cases hget : Get unmarshal d bucket key Json.null a.net w with
        | mk r1 w2 =>
          obtain ⟨ge, t⟩ := r1
          cases ge with
          | some e =>
            dsimp only
            constructor
            · intro h
              split at h <;> cases h
            · rintro ⟨w1, h⟩
              cases h
          | none => exact ih w2

/-- The probe `Get` returns no error exactly when a connection is acquired, the fetch meets
no transport failure, a record exists under the key and its content decodes. -/
theorem Get_nil_iff {V : Type} (unmarshal : String → V → Except String V) (d : Database)
    (bucket key : String) (target : V) (net : Net) (w : World) :
    (Get unmarshal d bucket key target net w).1.1 = none ↔
      (∃ c, (getConnection d net w).1 = .ok c) ∧ net.request = none ∧
      ∃ content v, w.objects.lookup (bucket, key) = some content ∧
        unmarshal content target = .ok v := by
  cases hg : getConnection d net w with
  | mk r w1 =>
    have ho := getConnection_objects d net w
    rw [hg] at ho
    dsimp only at ho
    cases r with
    | error e =>
      rw [Get_world_error unmarshal d bucket key target net w w1 e hg]
      constructor
      · intro h; cases h
      · rintro ⟨⟨c, hc⟩, -⟩; cases hc
    | ok c =>
      unfold Get
      rw [hg]
      dsimp only
      unfold FetchObject
      rw [ho]
      cases hr : net.request with
      | some msg =>
        dsimp only
        constructor
        · intro h; cases h
        · rintro ⟨-, h, -⟩; cases h
      | none =>
        dsimp only
        cases hl : w.objects.lookup (bucket, key) with
        | none =>
          dsimp only
          constructor
          · intro h; cases h
          · rintro ⟨-, -, content, v, h, -⟩; cases h
        | some content =>
          dsimp only
          cases hu : unmarshal content target with
          | error msg =>
            dsimp only
            constructor
            · intro h; cases h
            · rintro ⟨-, -, content1, v, h, hv⟩
              injection h with h
              subst h
              rw [hu] at hv
              cases hv
          | ok v =>
            dsimp only
            exact ⟨fun _ => ⟨⟨c, rfl⟩, rfl, content, v, rfl, hu⟩, fun _ => rfl⟩

/-- Claim C8, as stated, fails: the candidate of the first turn already exists in the
bucket, with a record whose content `xyz` is not JSON; the probe `Get` fetches it, fails to
decode it, and `UnusedKey` panics instead of discarding the candidate and probing the
candidate of the second turn. -/
theorem UnusedKey_existing_key_counterexample :
    generateKey 9 firstAttempt.src firstAttempt.now =
      .ret ("000102030405460788-17", none) ∧
    foreignWorld.objects.lookup ("test-bucket", "000102030405460788-17") = some "xyz" ∧
    UnusedKey refuseXyz testDatabase "test-bucket" 9 [firstAttempt, secondAttempt]
        foreignWorld =
      some (.panic (.explicit
        "riako: could not generate key - invalid character looking for beginning of value"),
        ⟨⟨20, [7], [], [7]⟩, [(("test-bucket", "000102030405460788-17"), "xyz")]⟩) := by
  decide

/-- Claim C8 (amended): after any turns in which the candidate was generated and its probe
returned no error (so the candidate was discarded and the loop still runs), the next turn
decides the call: a candidate whose probe reports not-found is returned; a candidate whose
probe returns no error, which happens exactly when a connection is acquired, the fetch
meets no transport failure, the key already exists and its record decodes, is discarded in
its turn and the loop goes on with a new candidate; a generation error, or a probe error
other than not-found, raises the panic `riako: could not generate key - ...`, so that
neither a key nor an error is returned. -/
theorem UnusedKey_policy (unmarshal : String → Json → Except String Json) (d : Database)
    (bucket : String) (n : Int) (pre : List Attempt) (a : Attempt) (rest : List Attempt)
    (w w1 : World) (hpre : discards unmarshal d bucket n pre w = some w1) :
    UnusedKey unmarshal d bucket n pre w = none ∧
    (∀ k t w2, generateKey n a.src a.now = .ret (k, none) →
      Get unmarshal d bucket k Json.null a.net w1 = ((some .ErrObjectNotFound, t), w2) →
      UnusedKey unmarshal d bucket n (pre ++ a :: rest) w = some (.ret k, w2)) ∧
    (∀ k t w2, generateKey n a.src a.now = .ret (k, none) →
      Get unmarshal d bucket k Json.null a.net w1 = ((none, t), w2) →
      discards unmarshal d bucket n (pre ++ [a]) w = some w2 ∧
      UnusedKey unmarshal d bucket n (pre ++ a :: rest) w =
        UnusedKey unmarshal d bucket n rest w2) ∧
    (∀ k, generateKey n a.src a.now = .ret (k, none) →
      ((Get unmarshal d bucket k Json.null a.net w1).1.1 = none ↔
        (∃ c, (getConnection d a.net w1).1 = .ok c) ∧ a.net.request = none ∧
        ∃ content j, w1.objects.lookup (bucket, k) = some content ∧
          unmarshal content Json.null = .ok j)) ∧
    (∀ k e, generateKey n a.src a.now = .ret (k, some e) →
      UnusedKey unmarshal d bucket n (pre ++ a :: rest) w =
        some (.panic (.explicit ("riako: could not generate key - " ++ e.Error)), w1)) ∧
    (∀ k e t w2, generateKey n a.src a.now = .ret (k, none) →
      Get unmarshal d bucket k Json.null a.net w1 = ((some e, t), w2) →
      e ≠ .ErrObjectNotFound →
      UnusedKey unmarshal d bucket n (pre ++ a :: rest) w =
        some (.panic (.explicit ("riako: could not generate key - " ++ e.Error)), w2)) := by
  have happ := UnusedKey_append unmarshal d bucket n pre w w1 hpre
  refine ⟨(UnusedKey_running unmarshal d bucket n pre w).2 ⟨w1, hpre⟩, ?_, ?_, ?_, ?_, ?_⟩
  · intro k t w2 hgen hget
    rw [happ]
    simp only [UnusedKey, hgen, hget, if_true]
  · intro k t w2 hgen hget
    constructor
    · have h1 : discards unmarshal d bucket n [a] w1 = some w2 := by
        simp only [discards, hgen, hget]
      have h2 : ∀ (p : List Attempt) (u u1 : World),
          discards unmarshal d bucket n p u = some u1 →
          discards unmarshal d bucket n (p ++ [a]) u =
            discards unmarshal d bucket n [a] u1 := by
        intro p
        induction p with
        | nil =>
          intro u u1 h
          injection h with h
          subst h
          rfl
        | cons x p ih =>
          intro u u1 h
          rw [List.cons_append]
          unfold discards at h ⊢
          cases hx : generateKey n x.src x.now with
          | panic q => rw [hx] at h; cases h
          | ret r =>
            obtain ⟨key, oe⟩ := r
            cases oe with
            | some e => rw [hx] at h; cases h
            | none =>
              rw [hx] at h
              dsimp only at h ⊢
              cases hg : Get unmarshal d bucket key Json.null x.net u with
              | mk r1 u2 =>
                obtain ⟨ge, t1⟩ := r1
                rw [hg] at h
                cases ge with
                | some e => cases h
                | none =>
                  dsimp only at h ⊢
                  exact ih u2 u1 h
      rw [h2 pre w w1 hpre, h1]
    · rw [happ]
      simp only [UnusedKey, hgen, hget]
  · intro k _
    exact Get_nil_iff unmarshal d bucket k Json.null a.net w1
  · intro k e hgen
    rw [happ]
    simp only [UnusedKey, hgen]
  · intro k e t w2 hgen hget hne
    rw [happ]
    simp only [UnusedKey, hgen, hget, hne, if_false]

/-- Witness of C8: the first candidate exists and is discarded, the second is returned. -/
theorem UnusedKey_policy_witness :
    UnusedKey acceptAll testDatabase "test-bucket" 9 ([firstAttempt] ++ secondAttempt :: [])
        occupiedWorld =
      some (.ret "ff01020304054b07bf-17",
        ⟨⟨20, [7], [], [7, 7]⟩, [(("test-bucket", "000102030405460788-17"), "1")]⟩) :=
  (UnusedKey_policy acceptAll testDatabase "test-bucket" 9 [firstAttempt] secondAttempt []
    occupiedWorld ⟨⟨20, [7], [], [7]⟩, [(("test-bucket", "000102030405460788-17"), "1")]⟩
    rfl).2.1 "ff01020304054b07bf-17" Json.null _ rfl rfl

end Riako
